import Mathlib

/-!
Verification development for the directors-chair video-production pipeline.

Shallow embedding of the claim-relevant parts of the repository:
  * `src/directors_chair/storyboard/loader.py`    — `validate_storyboard`
  * `src/directors_chair/cli/commands/storyboard.py` — `storyboard_to_video`
    (scene mode), `_stitch_clips` offset computation, output paths
  * `src/directors_chair/video/engines/fal_kling_engine.py` — `_resolve_voices`,
    `FalKlingEngine.generate_video` result handling
  * `src/directors_chair/video/engines/fal_kling_v2v_edit.py` — retry loop of
    `edit_clip`
  * `src/directors_chair/keyframe/nano_banana.py` — retry loop and result
    handling of `generate_keyframe_nano_banana`
  * `scripts/chair.py` — argument dispatch

Python machine integers are unbounded, so `Int`/`Nat` model them directly;
ffmpeg float durations are modelled as rationals (the offset claim is about
the exact arithmetic the code performs, not float rounding).
-/

namespace DirectorsChair

/-! ### Character-list string utilities

Python string membership (`"500" in msg`), `str.startswith` and `str.replace`
are modelled on `List Char`. -/

/-- Does `hay` start with `needle`? (Python `str.startswith`.) -/
def charsLeadWith : List Char → List Char → Bool
  | [], _ => true
  | _ :: _, [] => false
  | a :: as, b :: bs => a = b && charsLeadWith as bs

/-- Does `hay` contain `needle` as a contiguous substring? (Python `in`.) -/
def charsHaveSub (needle : List Char) : List Char → Bool
  | [] => needle.isEmpty
  | b :: bs => charsLeadWith needle (b :: bs) || charsHaveSub needle bs

/-- Python `needle in hay` on strings. -/
def strHasSub (needle hay : String) : Bool :=
  charsHaveSub needle.toList hay.toList

/-! ### Python/JSON value model

`json.load` produces nests of `None`/`bool`/`int`/`str`/`list`/`dict`.
(Float literals do not occur in the storyboard fields the claims touch and are
not modelled.)  Dicts keep insertion order and unique keys, modelled as
association lists looked up front-to-back. -/

inductive JVal where
  | jnull
  | jbool (b : Bool)
  | jint (n : Int)
  | jstr (s : String)
  | jlist (xs : List JVal)
  | jdict (kvs : List (String × JVal))

/-- First-match association-list lookup (Python dict access). -/
def dictGet (d : List (String × JVal)) (k : String) : Option JVal :=
  match d with
  | [] => none
  | (k', v) :: rest => if k' = k then some v else dictGet rest k

mutual
/-- Python `repr` of a JSON value (enough of it for `str`-conversion claims:
exact on `None`, booleans, ints and strings; bracketed sequence form on
containers). -/
def pyRepr : JVal → String
  | .jnull => "None"
  | .jbool b => if b then "True" else "False"
  | .jint n => toString n
  | .jstr s => "\x27" ++ s ++ "\x27"
  | .jlist xs => "[" ++ pyReprSeq xs ++ "]"
  | .jdict kvs => "\x7b" ++ pyReprKVSeq kvs ++ "\x7d"

def pyReprSeq : List JVal → String
  | [] => ""
  | [x] => pyRepr x
  | x :: y :: xs => pyRepr x ++ ", " ++ pyReprSeq (y :: xs)

def pyReprKVSeq : List (String × JVal) → String
  | [] => ""
  | [(k, v)] => "\x27" ++ k ++ "\x27: " ++ pyRepr v
  | (k, v) :: y :: xs => "\x27" ++ k ++ "\x27: " ++ pyRepr v ++ ", " ++ pyReprKVSeq (y :: xs)
end

/-- Python `str()` of a JSON value. -/
def pyStr : JVal → String
  | .jstr s => s
  | v => pyRepr v

/-- Python truthiness of a JSON value. -/
def pyFalsy : JVal → Bool
  | .jnull => true
  | .jbool b => !b
  | .jint n => n == 0
  | .jstr s => s == ""
  | .jlist xs => xs.isEmpty
  | .jdict d => d.isEmpty

/-- Python `isinstance(v, int)`: true for ints and booleans (`bool` is a
subclass of `int`). -/
def pyIsInt : JVal → Bool
  | .jint _ => true
  | .jbool _ => true
  | _ => false

/-- Integer value of an int-like Python object (`True == 1`, `False == 0`). -/
def pyToInt : JVal → Int
  | .jint n => n
  | .jbool b => if b then 1 else 0
  | _ => 0

/-- Python `==` between a string and an arbitrary value: only equal strings
compare equal. -/
def pyEqStr (v : JVal) (k : String) : Bool :=
  match v with
  | .jstr s => s == k
  | _ => false

/-- Python `k in v`.  Dict: key test; list: membership of the string; string:
substring test.  Other receivers raise `TypeError`, modelled as `.error`. -/
def pyContains (v : JVal) (k : String) : Except Unit Bool :=
  match v with
  | .jdict d => .ok (dictGet d k).isSome
  | .jlist xs => .ok (xs.any (pyEqStr · k))
  | .jstr s => .ok (strHasSub k s)
  | _ => .error ()

/-- Python `v[k]` for a string key.  Missing key raises `KeyError`, non-dict
receivers raise; both are modelled as `.error`. -/
def pySubscript (v : JVal) (k : String) : Except Unit JVal :=
  match v with
  | .jdict d =>
    match dictGet d k with
    | some x => .ok x
    | none => .error ()
  | _ => .error ()

/-- Python `v in set_of_strings`.  Unhashable values (lists, dicts) raise
`TypeError`; any other non-string value compares unequal to every string. -/
def pyInStrSet (v : JVal) (ss : List String) : Except Unit Bool :=
  match v with
  | .jstr s => .ok (ss.contains s)
  | .jlist _ => .error ()
  | .jdict _ => .error ()
  | _ => .ok false

/-! ### `validate_storyboard` (storyboard/loader.py)

The error strings the source accumulates are modelled by a structured error
type, one constructor per `errors.append(...)` site, carrying the indices the
message interpolates. -/

def VALID_BODY_TYPES : List String := ["large", "regular_male", "regular_female"]

def VALID_DURATIONS : List String := ["3", "4", "5", "6", "7", "8", "9", "10"]

def VALID_KEYFRAME_ENGINES : List String := ["kling", "gemini"]

inductive VErr where
  | missingName
  | missingShots
  | shotsNotList
  | badKeyframeEngine
  | missingCharacters
  | charMissingRef (cname : String)
  | charRefNotFound (cname : String)
  | charBadBodyType (cname : String)
  | shotMissingLayoutPrompt (i : Nat)
  | shotMissingKeyframe (i : Nat)
  | shotBadPasses (i : Nat)
  | passMissingPrompt (i p : Nat)
  | passMissingChars (i p : Nat)
  | anchorNotNonnegInt (i : Nat)
  | anchorNotEarlier (i : Nat)
  | shotMissingBeats (i : Nat)
  | shotBadBeats (i : Nat)
  | beatMissingPrompt (i j : Nat)
  | beatMissingDuration (i j : Nat)
  | beatBadDuration (i j : Nat)
deriving DecidableEq, Repr

/-- Indexed accumulation of per-item error lists, the common shape of the
`for i, x in enumerate(...)` validation loops (propagating a raised
`TypeError`/`KeyError` as `.error`). -/
def foldErrs {α : Type} (f : Nat → α → Except Unit (List VErr)) :
    Nat → List α → Except Unit (List VErr)
  | _, [] => .ok []
  | i, x :: rest =>
    f i x >>= fun e =>
    foldErrs f (i + 1) rest >>= fun es =>
    pure (e ++ es)

/-- Per-character checks of the `for char_name, char_def in characters.items()`
loop.  `pathExists` models `os.path.exists`. -/
def charDefErrs (pathExists : JVal → Bool) (cname : String) (cdef : JVal) :
    Except Unit (List VErr) :=
  pyContains cdef "reference_image" >>= fun hasRef =>
  (if !hasRef then pure [VErr.charMissingRef cname]
   else
     pySubscript cdef "reference_image" >>= fun rv =>
     pure (if pathExists rv then [] else [VErr.charRefNotFound cname])) >>= fun e1 =>
  pyContains cdef "body_type" >>= fun hasBT =>
  (if !hasBT then pure ([] : List VErr)
   else
     pySubscript cdef "body_type" >>= fun bv =>
     pyInStrSet bv VALID_BODY_TYPES >>= fun inSet =>
     pure (if inSet then [] else [VErr.charBadBodyType cname])) >>= fun e2 =>
  pure (e1 ++ e2)

def charErrs (pathExists : JVal → Bool) (cs : List (String × JVal)) :
    Except Unit (List VErr) :=
  foldErrs (fun _ p => charDefErrs pathExists p.1 p.2) 0 cs

/-- One iteration of the inner `for pi, kp in enumerate(passes)` loop. -/
def passItemErrs (i : Nat) (pi : Nat) (kp : JVal) : Except Unit (List VErr) :=
  pyContains kp "prompt" >>= fun hasPrompt =>
  pyContains kp "characters" >>= fun hasChars =>
  (if !hasChars then pure [VErr.passMissingChars i pi]
   else
     pySubscript kp "characters" >>= fun cv =>
     pure (match cv with
       | .jlist _ => ([] : List VErr)
       | _ => [VErr.passMissingChars i pi])) >>= fun e2 =>
  pure ((if hasPrompt then ([] : List VErr) else [VErr.passMissingPrompt i pi]) ++ e2)

def passErrs (i : Nat) (pi0 : Nat) (ps : List JVal) : Except Unit (List VErr) :=
  foldErrs (passItemErrs i) pi0 ps

/-- One iteration of the inner `for j, beat in enumerate(shot["beats"])` loop. -/
def beatItemErrs (i : Nat) (j : Nat) (beat : JVal) : Except Unit (List VErr) :=
  pyContains beat "prompt" >>= fun hasPrompt =>
  pyContains beat "duration" >>= fun hasDur =>
  (if !hasDur then pure [VErr.beatMissingDuration i j]
   else
     pySubscript beat "duration" >>= fun dv =>
     pure (if VALID_DURATIONS.contains (pyStr dv) then ([] : List VErr)
           else [VErr.beatBadDuration i j])) >>= fun e2 =>
  pure ((if hasPrompt then ([] : List VErr) else [VErr.beatMissingPrompt i j]) ++ e2)

def beatErrs (i : Nat) (j0 : Nat) (bs : List JVal) : Except Unit (List VErr) :=
  foldErrs (beatItemErrs i) j0 bs

/-- The `keyframe_passes` region of the shot loop, given the subscripted
`passes` value. -/
def passesCheck (i : Nat) : JVal → Except Unit (List VErr)
  | .jlist ps =>
    if ps.length < 2 then pure [VErr.shotBadPasses i] else passErrs i 0 ps
  | _ => pure [VErr.shotBadPasses i]

/-- The `anchor_keyframe` region of the shot loop, given the subscripted
anchor value:
`not isinstance(anchor, int) or anchor < 0`, `elif anchor >= i`. -/
def anchorCheck (i : Nat) (av : JVal) : List VErr :=
  if !pyIsInt av || pyToInt av < 0 then [VErr.anchorNotNonnegInt i]
  else if (i : Int) ≤ pyToInt av then [VErr.anchorNotEarlier i]
  else []

/-- The `beats` region of the shot loop, given the subscripted `beats` value. -/
def beatsCheck (i : Nat) : JVal → Except Unit (List VErr)
  | .jlist bs =>
    if bs.length < 1 then pure [VErr.shotBadBeats i] else beatErrs i 0 bs
  | _ => pure [VErr.shotBadBeats i]

/-- Checks of one iteration of `for i, shot in enumerate(storyboard["shots"])`. -/
def shotItemErrs (i : Nat) (shot : JVal) : Except Unit (List VErr) :=
  pyContains shot "layout_prompt" >>= fun hasLayout =>
  pyContains shot "keyframe_prompt" >>= fun hasKeyframe =>
  pyContains shot "keyframe_passes" >>= fun hasPasses =>
  (if hasPasses then
     pySubscript shot "keyframe_passes" >>= fun passes => passesCheck i passes
   else pure ([] : List VErr)) >>= fun e3 =>
  pyContains shot "anchor_keyframe" >>= fun hasAnchor =>
  (if hasAnchor then
     pySubscript shot "anchor_keyframe" >>= fun anchor => pure (anchorCheck i anchor)
   else pure ([] : List VErr)) >>= fun e4 =>
  pyContains shot "beats" >>= fun hasBeats =>
  (if !hasBeats then pure [VErr.shotMissingBeats i]
   else pySubscript shot "beats" >>= fun bv => beatsCheck i bv) >>= fun e5 =>
  pure ((if hasLayout then ([] : List VErr) else [VErr.shotMissingLayoutPrompt i]) ++
    (if !hasKeyframe && !hasPasses then [VErr.shotMissingKeyframe i] else ([] : List VErr)) ++
    e3 ++ e4 ++ e5)

def shotsErrs (i0 : Nat) (xs : List JVal) : Except Unit (List VErr) :=
  foldErrs shotItemErrs i0 xs

/-- `validate_storyboard(storyboard)` from `storyboard/loader.py`.
`pathExists` abstracts `os.path.exists`; a Python `TypeError`/`KeyError`
raised on ill-typed input surfaces as `.error ()`. -/
def validate_storyboard (pathExists : JVal → Bool) (sb : List (String × JVal)) :
    Except Unit (Bool × List VErr) :=
  pyInStrSet ((dictGet sb "keyframe_engine").getD (.jstr "gemini"))
      VALID_KEYFRAME_ENGINES >>= fun inEngines =>
  (if pyFalsy ((dictGet sb "characters").getD (.jdict [])) then
     pure [VErr.missingCharacters]
   else
     match (dictGet sb "characters").getD (.jdict []) with
     | .jdict cs => charErrs pathExists cs
     | _ => .error ()) >>= fun e4 =>
  (match dictGet sb "shots" with
   | some (.jlist xs) => shotsErrs 0 xs
   | _ => pure ([] : List VErr)) >>= fun e5 =>
  pure (
    let errs :=
      (if (dictGet sb "name").isNone then [VErr.missingName] else ([] : List VErr)) ++
      (match dictGet sb "shots" with
       | none => [VErr.missingShots]
       | some (.jlist xs) => if xs.length < 1 then [VErr.shotsNotList] else ([] : List VErr)
       | some _ => [VErr.shotsNotList]) ++
      (if inEngines then ([] : List VErr) else [VErr.badKeyframeEngine]) ++
      e4 ++ e5
    (errs.isEmpty, errs))

/-- The `shots` field of a storyboard, when present and a list. -/
def shotsOf (sb : List (String × JVal)) : Option (List JVal) :=
  match dictGet sb "shots" with
  | some (.jlist xs) => some xs
  | _ => none

/-- The shot index carried by a shot-scoped validation error, `none` for the
storyboard-level and character-level errors. -/
def errShotIdx : VErr → Option Nat
  | .shotMissingLayoutPrompt i => some i
  | .shotMissingKeyframe i => some i
  | .shotBadPasses i => some i
  | .passMissingPrompt i _ => some i
  | .passMissingChars i _ => some i
  | .anchorNotNonnegInt i => some i
  | .anchorNotEarlier i => some i
  | .shotMissingBeats i => some i
  | .shotBadBeats i => some i
  | .beatMissingPrompt i _ => some i
  | .beatMissingDuration i _ => some i
  | .beatBadDuration i _ => some i
  | _ => none

/-- The beat index carried by a beat-scoped validation error. -/
def errBeatIdx : VErr → Option Nat
  | .beatMissingPrompt _ j => some j
  | .beatMissingDuration _ j => some j
  | .beatBadDuration _ j => some j
  | _ => none

/-! Concrete storyboard used to exercise the validator theorems. -/

def sampleBeat : JVal := .jdict [("prompt", .jstr "walks"), ("duration", .jstr "5")]

def sampleShot0 : JVal :=
  .jdict [("layout_prompt", .jstr "wide shot"), ("keyframe_prompt", .jstr "hero"),
          ("beats", .jlist [sampleBeat])]

def sampleShot1 : JVal :=
  .jdict [("layout_prompt", .jstr "close shot"), ("keyframe_prompt", .jstr "hero again"),
          ("anchor_keyframe", .jint 0), ("beats", .jlist [sampleBeat])]

def sampleStoryboard : List (String × JVal) :=
  [("name", .jstr "demo"), ("shots", .jlist [sampleShot0, sampleShot1]),
   ("characters", .jdict [("hero", .jdict [("reference_image", .jstr "hero.png")])])]

/-! ### Storyboard validation: marker for claim statements -/

/-! ### Crossfade offsets (`_stitch_clips`, storyboard.py lines 792-797)

    offsets = []
    accumulated = 0
    for i, ci in enumerate(clip_info[:-1]):
        accumulated += ci["content_duration"] if i == 0 else ci["content_duration"] - crossfade
        offsets.append(accumulated - crossfade)
-/

def xfadeGo (crossfade : ℚ) : Nat → ℚ → List ℚ → List ℚ
  | _, _, [] => []
  | i, accumulated, d :: rest =>
    let acc := if i = 0 then accumulated + d else accumulated + d - crossfade
    (acc - crossfade) :: xfadeGo crossfade (i + 1) acc rest

/-- The xfade offset list computed by `_stitch_clips` from the probed content
durations (`clip_info[:-1]` drops the last clip). -/
def xfadeOffsets (durs : List ℚ) (crossfade : ℚ) : List ℚ :=
  xfadeGo crossfade 0 0 durs.dropLast

/-! ### Vendor-call retry loops

`generate_keyframe_nano_banana` (nano_banana.py lines 97-132) and `edit_clip`
(fal_kling_v2v_edit.py lines 121-151) wrap the submit call in
`for attempt in range(max_retries)` with `max_retries = 3`, sleeping
`10 * (attempt + 1)` seconds before re-trying a transient server error.
The loop is modelled as a function of the outcome of each submit attempt. -/

inductive AttemptRes where
  | success
  | failure (msg : String)

inductive RetryEnd where
  | ok
  | raised (msg : String)
  | rejected422
deriving DecidableEq, Repr

structure RetryRun where
  calls : Nat
  waits : List Nat
  outcome : RetryEnd
deriving DecidableEq, Repr

/-- `"500" in str(e) or "downstream_service_error" in str(e)`. -/
def isTransientErr (msg : String) : Bool :=
  strHasSub "500" msg || strHasSub "downstream_service_error" msg

/-- The retry loop of `generate_keyframe_nano_banana`, from attempt `i`. -/
def nbRetryFrom (attempts : Nat → AttemptRes) (maxRetries : Nat) :
    Nat → List Nat → RetryRun
  | i, waits =>
    match attempts i with
    | .success => ⟨i + 1, waits, .ok⟩
    | .failure msg =>
      if isTransientErr msg then
        if i < maxRetries - 1 then
          nbRetryFrom attempts maxRetries (i + 1) (waits ++ [10 * (i + 1)])
        else ⟨i + 1, waits, .raised msg⟩
      else ⟨i + 1, waits, .raised msg⟩
termination_by i _ => maxRetries - i
decreasing_by simp_wf; omega

def generate_keyframe_retry (attempts : Nat → AttemptRes) : RetryRun :=
  nbRetryFrom attempts 3 0 []

/-- The retry loop of `edit_clip`: a message containing `"422"` returns
`False` before the transient-error test is reached. -/
def editRetryFrom (attempts : Nat → AttemptRes) (maxRetries : Nat) :
    Nat → List Nat → RetryRun
  | i, waits =>
    match attempts i with
    | .success => ⟨i + 1, waits, .ok⟩
    | .failure msg =>
      if strHasSub "422" msg then ⟨i + 1, waits, .rejected422⟩
      else if isTransientErr msg then
        if i < maxRetries - 1 then
          editRetryFrom attempts maxRetries (i + 1) (waits ++ [10 * (i + 1)])
        else ⟨i + 1, waits, .raised msg⟩
      else ⟨i + 1, waits, .raised msg⟩
termination_by i _ => maxRetries - i
decreasing_by simp_wf; omega

def edit_clip_retry (attempts : Nat → AttemptRes) : RetryRun :=
  editRetryFrom attempts 3 0 []

/-! ### `_resolve_voices` (fal_kling_engine.py lines 9-63)

Beats are dicts with `prompt` and `duration` keys; only those two fields are
used by the engine.  Tag scanning models the regex `<<<(\w+)>>>` and
`str.replace`; the recursions carry the string length as explicit fuel, which
bounds but never truncates them (each step consumes at least one character). -/

structure Beat where
  prompt : String
  duration : String
deriving DecidableEq, Repr

/-- Python regex `\w` (ASCII portion). -/
def isWordChar (c : Char) : Bool := c.isAlphanum || c = '_'

/-- Match `<<<(\w+)>>>` at the head of the list, returning the captured name
and the remainder after the match. -/
def matchTag : List Char → Option (List Char × List Char)
  | '<' :: '<' :: '<' :: rest =>
    let word := rest.takeWhile isWordChar
    let after := rest.dropWhile isWordChar
    if word.isEmpty then none
    else
      match after with
      | '>' :: '>' :: '>' :: rest2 => some (word, rest2)
      | _ => none
  | _ => none

/-- All `<<<(\w+)>>>` matches, left to right, non-overlapping (Python
`re.finditer`). -/
def findTagsGo : Nat → List Char → List (List Char)
  | 0, _ => []
  | _, [] => []
  | fuel + 1, c :: rest =>
    match matchTag (c :: rest) with
    | some wr => wr.1 :: findTagsGo fuel wr.2
    | none => findTagsGo fuel rest

def findTags (s : List Char) : List (List Char) :=
  findTagsGo s.length s

/-- The `seen` list: tag names in order of first appearance, skipping names
that start with `voice_`. -/
def collectSeenForPrompt (seen : List String) (p : String) : List String :=
  (findTags p.toList).foldl
    (fun seen name =>
      let n := String.mk name
      if seen.contains n || charsLeadWith "voice_".toList name then seen
      else seen ++ [n])
    seen

def collectSeen (beats : List Beat) : List String :=
  beats.foldl (fun seen b => collectSeenForPrompt seen b.prompt) []

/-- Match `@(?:Element|Image)\d+\s*` at the head of the list, returning the
remainder after the match. -/
def matchElemRef : List Char → Option (List Char)
  | '@' :: rest =>
    let tail? :=
      if charsLeadWith "Element".toList rest then some (rest.drop 7)
      else if charsLeadWith "Image".toList rest then some (rest.drop 5)
      else none
    match tail? with
    | none => none
    | some t =>
      let digits := t.takeWhile Char.isDigit
      if digits.isEmpty then none
      else some ((t.dropWhile Char.isDigit).dropWhile (fun c => c.isWhitespace))
  | _ => none

/-- `re.sub(r"@(?:Element|Image)\d+\s*", "", prompt)`. -/
def stripElemGo : Nat → List Char → List Char
  | 0, s => s
  | fuel + 1, s =>
    match s with
    | [] => []
    | c :: rest =>
      match matchElemRef (c :: rest) with
      | some r => stripElemGo fuel r
      | none => c :: stripElemGo fuel rest

def stripElemRefs (s : List Char) : List Char :=
  stripElemGo s.length s

/-- Python `str.replace`: replace every non-overlapping occurrence of `pat`,
left to right. -/
def replaceSubGo (pat rep : List Char) : Nat → List Char → List Char
  | 0, s => s
  | fuel + 1, s =>
    match s with
    | [] => []
    | c :: rest =>
      if !pat.isEmpty && charsLeadWith pat (c :: rest) then
        rep ++ replaceSubGo pat rep fuel ((c :: rest).drop pat.length)
      else c :: replaceSubGo pat rep fuel rest

def pyReplace (s pat rep : String) : String :=
  String.mk (replaceSubGo pat.toList rep.toList s.toList.length s.toList)

inductive VoiceErr where
  | valueError (msg : String)
  | typeError
deriving DecidableEq, Repr

/-- The `for name in seen` loop: map names to voice ids and 1-based slots,
raising `ValueError` for unknown characters or a missing/empty
`kling_voice_id` (`.get` on a non-dict definition raises, modelled as
`typeError`). -/
def buildVoices (characters : List (String × JVal)) :
    Nat → List String → Except VoiceErr (List (String × Nat) × List JVal)
  | _, [] => .ok ([], [])
  | slot, name :: rest =>
    match dictGet characters name with
    | none =>
      .error (.valueError ("<<<" ++ name ++ ">>> in beat prompt but not in characters"))
    | some (.jdict d) =>
      if pyFalsy ((dictGet d "kling_voice_id").getD .jnull) then
        .error (.valueError ("Character " ++ name ++ " has no kling_voice_id"))
      else
        match buildVoices characters (slot + 1) rest with
        | .error e => .error e
        | .ok sv => .ok ((name, slot) :: sv.1, ((dictGet d "kling_voice_id").getD .jnull) :: sv.2)
    | some _ => .error .typeError

/-- Apply the `name_to_slot` replacements in insertion order to one prompt. -/
def applySlots (slots : List (String × Nat)) (p : String) : String :=
  slots.foldl
    (fun prompt ns =>
      pyReplace prompt ("<<<" ++ ns.1 ++ ">>>") ("<<<voice_" ++ toString ns.2 ++ ">>>"))
    p

/-- `_resolve_voices(beats, characters)`. -/
def resolve_voices (beats : List Beat) (characters : List (String × JVal)) :
    Except VoiceErr (List Beat × List JVal) :=
  if (collectSeen beats).isEmpty then .ok (beats, [])
  else
    match buildVoices characters 1 (collectSeen beats) with
    | .error e => .error e
    | .ok sv =>
      if sv.2.length > 2 then
        .error (.valueError "Kling supports max 2 voices per clip")
      else
        .ok ((beats.map (fun b =>
            { b with prompt := String.mk (stripElemRefs b.prompt.toList) })).map
              (fun b => { b with prompt := applySlots sv.1 b.prompt }),
          sv.2)

/-- Character name that the claim flags: missing voice id (absent or falsy). -/
def charLacksVoice (characters : List (String × JVal)) (n : String) : Prop :=
  ∃ d, dictGet characters n = some (.jdict d) ∧
    pyFalsy ((dictGet d "kling_voice_id").getD .jnull) = true

/-- The expected slot table from a start slot: consecutive slots in order. -/
def slotTable (slot0 : Nat) : List String → List (String × Nat)
  | [] => []
  | n :: rest => (n, slot0) :: slotTable (slot0 + 1) rest

/-- The expected slot table: the `k`-th first-seen name maps to slot `k+1`. -/
def slotAssignment (seen : List String) : List (String × Nat) :=
  slotTable 1 seen

/-- The voice id the loop reads for a known character. -/
def voiceIdOf (characters : List (String × JVal)) (n : String) : JVal :=
  match dictGet characters n with
  | some (.jdict d) => (dictGet d "kling_voice_id").getD .jnull
  | _ => .jnull

/-! ### Result handling: `FalKlingEngine.generate_video` (lines 171-190) and
`generate_keyframe_nano_banana` (lines 139-172)

The upload/submit segment performs no local file writes and cannot return,
so the model composes voice resolution, the `int(b["duration"])` conversion,
and the response-URL extraction, returning the success flag together with the
list of files written. -/

/-- `result.get("video", {}).get("url")`, falling back to `result.get("url")`
when falsy (a non-dict `"video"` value raises `AttributeError`). -/
def extract_video_url (result : List (String × JVal)) : Except Unit JVal :=
  match (dictGet result "video").getD (.jdict []) with
  | .jdict d =>
    let u1 := (dictGet d "url").getD .jnull
    .ok (if pyFalsy u1 then (dictGet result "url").getD .jnull else u1)
  | _ => .error ()

/-- `sum(int(b["duration"]) for b in beats)` parses every duration. -/
def durationsParse (beats : List Beat) : Bool :=
  beats.all (fun b => b.duration.toInt?.isSome)

/-- `FalKlingEngine.generate_video`, as a function of the vendor response:
returns the success flag and the local files written. -/
def generate_video (beats : List Beat) (characters : List (String × JVal))
    (result : List (String × JVal)) (outputPath : String) :
    Except VoiceErr (Bool × List String) :=
  match resolve_voices beats characters with
  | .error e => .error e
  | .ok _ =>
    if !durationsParse beats then .error (.valueError "invalid literal for int()")
    else
      match extract_video_url result with
      | .error _ => .error .typeError
      | .ok u =>
        if pyFalsy u then .ok (false, [])
        else .ok (true, [outputPath])

/-- `os.path.splitext`. -/
def lastIdxOf (c : Char) (cs : List Char) : Option Nat :=
  match cs.reverse.findIdx? (· = c) with
  | none => none
  | some k => some (cs.length - 1 - k)

def splitExt (s : String) : String × String :=
  let cs := s.toList
  let sepIdx := ((lastIdxOf '/' cs).map (· + 1)).getD 0
  match lastIdxOf '.' cs with
  | none => (s, "")
  | some di =>
    if di < sepIdx then (s, "")
    else
      match (cs.drop sepIdx).findIdx? (· ≠ '.') with
      | none => (s, "")
      | some fn =>
        if sepIdx + fn < di then (String.mk (cs.take di), String.mk (cs.drop di))
        else (s, "")

def variantPath (outputPath : String) (k : Nat) : String :=
  let be := splitExt outputPath
  be.1 ++ "_v" ++ toString (k + 1) ++ be.2

/-- The variant files written by the `num_images > 1` branch (one per image
with a truthy `url`). -/
def variantWrites (images : List JVal) (outputPath : String) : List String :=
  images.enum.filterMap fun ki =>
    match ki.2 with
    | .jdict d =>
      if pyFalsy ((dictGet d "url").getD .jnull) then none
      else some (variantPath outputPath ki.1)
    | _ => none

/-- Result handling of `generate_keyframe_nano_banana`: the success flag and
the local files written, as a function of the vendor response. -/
def generate_keyframe_result (result : List (String × JVal)) (outputPath : String)
    (numImages : Nat) : Except Unit (Bool × List String) :=
  let imagesV := (dictGet result "images").getD (.jlist [])
  if pyFalsy imagesV then .ok (false, [])
  else
    match imagesV with
    | .jlist (first :: restImgs) =>
      match first with
      | .jdict d =>
        if pyFalsy ((dictGet d "url").getD .jnull) then .ok (false, [])
        else if numImages == 1 then .ok (true, [outputPath])
        else .ok (true, variantWrites (first :: restImgs) outputPath)
      | _ => .error ()
    | _ => .error ()

/-! ## Output-path construction (`storyboard_to_video` / `_stitch_clips`) -/

/-- Does the string start with a slash (posix `b.startswith("/")`). -/
def strStartsSlash (s : String) : Bool :=
  match s.data with
  | [] => false
  | c :: _ => c == '/'

/-- Does the string end with a slash (posix `path.endswith("/")`). -/
def strEndsSlash (s : String) : Bool :=
  match s.data.getLast? with
  | some c => c == '/'
  | none => false

/-- `posixpath.join(a, b)`: an absolute second component replaces the path;
otherwise a separator is inserted unless the path is empty or already ends
with one. -/
def pyJoin (a b : String) : String :=
  if strStartsSlash b then b
  else if a.data.isEmpty || strEndsSlash a then a ++ b
  else a ++ "/" ++ b

/-- Python `f"\x7bi:03d\x7d"` for a natural number. -/
def pad3 (i : Nat) : String :=
  if i < 10 then "00" ++ toString i
  else if i < 100 then "0" ++ toString i
  else toString i

/-- Default `directories.videos` from config. -/
def videos_dir : String := "assets/generated/videos"

/-- `output_base = os.path.join(videos_dir, name)`. -/
def output_base (name : String) : String := pyJoin videos_dir name

/-- `keyframes_dir = os.path.join(output_base, "keyframes")`. -/
def keyframes_dirOf (name : String) : String :=
  pyJoin (output_base name) "keyframes"

/-- `clips_dir = os.path.join(output_base, "clips", engine_key)`. -/
def clips_dirOf (name engineKey : String) : String :=
  pyJoin (pyJoin (output_base name) "clips") engineKey

/-- `kf_path = os.path.join(keyframes_dir, f"keyframe_\x7bi:03d\x7d.png")`. -/
def keyframe_pathOf (name : String) (i : Nat) : String :=
  pyJoin (keyframes_dirOf name) ("keyframe_" ++ pad3 i ++ ".png")

/-- `clip_path = os.path.join(clips_dir, f"clip_\x7bi:03d\x7d.mp4")`. -/
def clip_pathOf (name engineKey : String) (i : Nat) : String :=
  pyJoin (clips_dirOf name engineKey) ("clip_" ++ pad3 i ++ ".mp4")

/-- `final_video_path = os.path.join(output_base, f"\x7bname\x7d_\x7bengine_key\x7d.mp4")`
in `_stitch_clips`. -/
def final_video_pathOf (name engineKey : String) : String :=
  pyJoin (output_base name) (name ++ "_" ++ engineKey ++ ".mp4")

/-! ## Scene-mode pipeline (`storyboard_to_video`, `stitch_mode == "scene"`)

A state model of the orchestrator for a single-character storyboard with an
existing reference image: keyframe loop → interactive keyframe review →
clip loop → `_stitch_clips`.  The on-disk output directory is an association
list from path keys to file sizes; vendor generation outcomes are supplied by
oracles (`some size` = the call succeeded and wrote a file of that size,
`none` = it failed). -/

/-- Files the scene-mode pipeline reads or writes. -/
inductive PathKey where
  | keyframe (i : Nat)
  | keyframePass (i p : Nat)
  | clip (i : Nat)
  | finalVideo
deriving DecidableEq, Repr

/-- The output directory: path → size of the file stored there. -/
abbrev FS := List (PathKey × Nat)

def fsLookup : FS → PathKey → Option Nat
  | [], _ => none
  | (q, s) :: rest, p => if q = p then some s else fsLookup rest p

/-- `os.path.exists`. -/
def fsExists (fs : FS) (p : PathKey) : Bool := (fsLookup fs p).isSome

/-- `os.path.getsize` (0 for a missing file). -/
def fsSize (fs : FS) (p : PathKey) : Nat := (fsLookup fs p).getD 0

/-- `os.remove`. -/
def fsErase : FS → PathKey → FS
  | [], _ => []
  | (q, s) :: rest, p => if q = p then fsErase rest p else (q, s) :: fsErase rest p

def fsWrite (fs : FS) (p : PathKey) (sz : Nat) : FS := (p, sz) :: fsErase fs p

/-- Observable pipeline events; `layoutGen` is what a layout-generation stage
would emit (= a call of `generate_layout`). -/
inductive Event where
  | layoutGen
  | keyframeGen (i : Nat)
  | clipGen (i : Nat)
  | stitchRun
deriving DecidableEq, Repr

/-- The fields of a shot the scene-mode loops consult:
`shot.get("image_prompt", "")` and `shot.get("motion")` (both falsy when
empty). -/
structure Shot where
  imagePrompt : String
  motion : String
deriving DecidableEq, Repr

/-- Result of a pipeline stage: the directory afterwards, the events emitted,
and whether control continues (`ok = false` models an early `return`). -/
structure StRes where
  fs : FS
  tr : List Event
  ok : Bool
deriving Repr

def consEv (e : Event) (r : StRes) : StRes := StRes.mk r.fs (e :: r.tr) r.ok

/-- Sequencing: the next stage runs only if the previous one did not
`return` early; traces concatenate. -/
def seqSt (r : StRes) (f : FS → StRes) : StRes :=
  if r.ok then StRes.mk (f r.fs).fs (r.tr ++ (f r.fs).tr) (f r.fs).ok else r

/-- Keyframe loop (`for i, shot in enumerate(shots)`): skip when
`keyframe_iii.png` exists; abort on a missing scene prompt; else call
`_generate_keyframe_kontext` (outcome from `korc`), aborting on failure. -/
def kfGo (korc : Nat → Option Nat) : List Shot → Nat → FS → StRes
  | [], _, fs => StRes.mk fs [] true
  | s :: rest, i, fs =>
    if fsExists fs (.keyframe i) then kfGo korc rest (i + 1) fs
    else if s.imagePrompt = "" then StRes.mk fs [] false
    else
      match korc i with
      | none => StRes.mk fs [] false
      | some sz =>
        consEv (.keyframeGen i)
          (kfGo korc rest (i + 1) (fsWrite fs (.keyframe i) sz))

/-- `for p in range(10): remove intermediate pass file, else break`. -/
def erasePasses : FS → Nat → Nat → Nat → FS
  | fs, _, _, 0 => fs
  | fs, idx, p, fuel + 1 =>
    if fsExists fs (.keyframePass idx p) then
      erasePasses (fsErase fs (.keyframePass idx p)) idx (p + 1) fuel
    else fs

/-- Re-generate one keyframe during review: remove it and its pass files,
then call the generator (whose result, if any, is not checked). -/
def regenKf (korc : Nat → Option Nat) (idx : Nat) (fs : FS) : StRes :=
  match korc idx with
  | none => StRes.mk (erasePasses (fsErase fs (.keyframe idx)) idx 0 10) [] true
  | some sz =>
    StRes.mk
      (fsWrite (erasePasses (fsErase fs (.keyframe idx)) idx 0 10)
        (.keyframe idx) sz)
      [Event.keyframeGen idx] true

/-- One answer to the `while True` keyframe-review prompt. -/
inductive RAction where
  | acceptAll
  | abortRun
  | regen (idx : Nat)
deriving DecidableEq, Repr

/-- The review loop: an exhausted answer list models `questionary` returning
`None`, which aborts like "Abort storyboard". -/
def reviewGo (korc : Nat → Option Nat) : List RAction → FS → StRes
  | [], fs => StRes.mk fs [] false
  | a :: rest, fs =>
    match a with
    | .abortRun => StRes.mk fs [] false
    | .acceptAll => StRes.mk fs [] true
    | .regen idx => seqSt (regenKf korc idx fs) (reviewGo korc rest)

/-- Clip loop: skip shots without motion; skip when `clip_iii.mp4` exists
with positive size; else call `video_manager.generate_clip` (outcome from
`corc`), aborting on failure. -/
def clipGo (corc : Nat → Option Nat) : List Shot → Nat → FS → StRes
  | [], _, fs => StRes.mk fs [] true
  | s :: rest, i, fs =>
    if s.motion = "" then clipGo corc rest (i + 1) fs
    else if fsExists fs (.clip i) && decide (0 < fsSize fs (.clip i)) then
      clipGo corc rest (i + 1) fs
    else
      match corc i with
      | none => StRes.mk fs [] false
      | some sz =>
        consEv (.clipGen i) (clipGo corc rest (i + 1) (fsWrite fs (.clip i) sz))

/-- The scene-mode body of `storyboard_to_video`: keyframes, review, clips,
then `_stitch_clips` (which writes the final video). -/
def sceneRun (korc corc : Nat → Option Nat) (stitchSz : Nat) (shots : List Shot)
    (reviews : List RAction) (fs0 : FS) : StRes :=
  seqSt (kfGo korc shots 0 fs0) (fun fs1 =>
    seqSt (reviewGo korc reviews fs1) (fun fs2 =>
      seqSt (clipGo corc shots 0 fs2) (fun fs3 =>
        StRes.mk (fsWrite fs3 .finalVideo stitchSz) [Event.stitchRun] true)))

/-! ## CLI dispatch (`scripts/chair.py main`) -/

/-- What `main()` does after parsing: show the interactive menu or call a
pipeline function with keyword arguments. -/
inductive ChairAction where
  | runMenu
  | callFn (fn : String) (kwargs : List String)
deriving DecidableEq, Repr

/-- The keyword arguments `chair.py` passes to `storyboard_to_video`. -/
def storyboardDispatchKwargs : List String :=
  ["storyboard_file", "auto_mode", "keyframes_only", "regen_keyframes",
    "edit_keyframes"]

/-- The `if args.command is None ... elif ...` chain of `main()` in
`scripts/chair.py`, keyed by the parsed subcommand (and voice subcommand). -/
def chairDispatch (command voiceCommand : Option String) : ChairAction :=
  match command with
  | none => .runMenu
  | some c =>
    if c = "storyboard" then
      .callFn "storyboard_to_video" storyboardDispatchKwargs
    else if c = "generate" then
      .callFn "generate_images" ["theme_name", "auto_mode", "count_override"]
    else if c = "edit-clip" then
      .callFn "edit_clip_command"
        ["storyboard_file", "clip_name", "edit_prompt", "auto_mode",
          "save_as_new"]
    else if c = "edit-keyframe" then
      .callFn "edit_keyframe_command"
        ["storyboard_file", "keyframe_name", "edit_prompt", "auto_mode"]
    else if c = "regen-clip" then
      .callFn "regen_clip_command" ["storyboard_file", "clip_name", "auto_mode"]
    else if c = "assemble" then
      .callFn "assemble_movie" ["clip_names", "movie_name", "auto_mode"]
    else if c = "voice" then
      match voiceCommand with
      | none => .callFn "voice_menu" []
      | some v =>
        if v = "design" then
          .callFn "design_voice_command"
            ["char_name", "description", "sample_text", "auto_mode"]
        else if v = "clone" then
          .callFn "clone_voice_command"
            ["char_name", "description", "files_str", "remove_noise",
              "auto_mode"]
        else if v = "remix" then
          .callFn "remix_voice_command"
            ["char_name", "description", "new_name", "auto_mode"]
        else if v = "list" then .callFn "list_voices_command" []
        else if v = "test" then
          .callFn "test_voice_command" ["char_name", "text", "auto_mode"]
        else .runMenu
    else .runMenu

/-- Formal parameters of `def storyboard_to_video():` — it takes none. -/
def storyboard_to_video_params : List String := []

/-- Formal parameters of `generate_images(theme_name, auto_mode, count_override)`. -/
def generate_images_params : List String :=
  ["theme_name", "auto_mode", "count_override"]

/-- A Python keyword call binds without `TypeError` iff every keyword names a
formal parameter (all parameters of the dispatched functions have defaults). -/
def pyCallBindOk (params kwargs : List String) : Bool :=
  kwargs.all fun k => params.contains k

/-! ## Theorems -/

/-! ### Generic lemmas about `Except` and `foldErrs` -/

lemma bind_ok_iff {α β : Type} (x : Except Unit α) (f : α → Except Unit β) (b : β) :
    (x >>= f) = .ok b ↔ ∃ a, x = .ok a ∧ f a = .ok b := by
  cases x with
  | error e => simp [Bind.bind, Except.bind]
  | ok a => simp [Bind.bind, Except.bind]

lemma pure_ok_iff {α : Type} (a b : α) :
    (pure a : Except Unit α) = .ok b ↔ a = b := by
  simp [Pure.pure, Except.pure]

lemma foldErrs_ok_mem {α : Type} (f : Nat → α → Except Unit (List VErr)) :
    ∀ (xs : List α) (i0 : Nat) (errs : List VErr),
      foldErrs f i0 xs = .ok errs →
      ∀ v, (v ∈ errs ↔
        ∃ k x ek, xs.get? k = some x ∧ f (i0 + k) x = .ok ek ∧ v ∈ ek) := by
  intro xs
  induction xs with
  | nil =>
    intro i0 errs h v
    rw [foldErrs] at h
    cases h
    simp
  | cons x rest ih =>
    intro i0 errs h v
    rw [foldErrs] at h
    obtain ⟨e, he, h2⟩ := (bind_ok_iff _ _ _).1 h
    obtain ⟨es, hes, h3⟩ := (bind_ok_iff _ _ _).1 h2
    rw [pure_ok_iff] at h3
    subst h3
    rw [List.mem_append]
    constructor
    · rintro (hv | hv)
      · exact ⟨0, x, e, rfl, by simpa using he, hv⟩
      · obtain ⟨k, x', ek, hget, hf, hv'⟩ := (ih (i0 + 1) es hes v).1 hv
        refine ⟨k + 1, x', ek, by simpa using hget, ?_, hv'⟩
        have : i0 + (k + 1) = i0 + 1 + k := by omega
        rw [this]
        exact hf
    · rintro ⟨k, x', ek, hget, hf, hv⟩
      cases k with
      | zero =>
        simp at hget
        subst hget
        simp at hf
        rw [he] at hf
        cases hf
        exact Or.inl hv
      | succ k =>
        refine Or.inr ((ih (i0 + 1) es hes v).2 ⟨k, x', ek, by simpa using hget, ?_, hv⟩)
        have : i0 + 1 + k = i0 + (k + 1) := by omega
        rw [this]
        exact hf

lemma foldErrs_ok_each {α : Type} (f : Nat → α → Except Unit (List VErr)) :
    ∀ (xs : List α) (i0 : Nat) (errs : List VErr),
      foldErrs f i0 xs = .ok errs →
      ∀ k x, xs.get? k = some x → ∃ ek, f (i0 + k) x = .ok ek ∧ ek ⊆ errs := by
  intro xs
  induction xs with
  | nil =>
    intro i0 errs _ k x hget
    simp at hget
  | cons y rest ih =>
    intro i0 errs h k x hget
    rw [foldErrs] at h
    obtain ⟨e, he, h2⟩ := (bind_ok_iff _ _ _).1 h
    obtain ⟨es, hes, h3⟩ := (bind_ok_iff _ _ _).1 h2
    rw [pure_ok_iff] at h3
    subst h3
    cases k with
    | zero =>
      simp at hget
      subst hget
      exact ⟨e, by simpa using he, fun v hv => List.mem_append.2 (Or.inl hv)⟩
    | succ k =>
      obtain ⟨ek, hf, hsub⟩ := ih (i0 + 1) es hes k x (by simpa using hget)
      refine ⟨ek, ?_, fun v hv => List.mem_append.2 (Or.inr (hsub hv))⟩
      have : i0 + (k + 1) = i0 + 1 + k := by omega
      rw [this]
      exact hf

lemma ok_bind {α β : Type} (a : α) (f : α → Except Unit β) :
    ((Except.ok a : Except Unit α) >>= f) = f a := rfl

lemma err_bind {α β : Type} (f : α → Except Unit β) :
    ((Except.error () : Except Unit α) >>= f) = .error () := rfl

lemma pure_eq_ok {α : Type} (a : α) : (pure a : Except Unit α) = .ok a := rfl

lemma pySubscript_ok_iff (v : JVal) (k : String) (x : JVal) :
    pySubscript v k = .ok x ↔ ∃ d, v = .jdict d ∧ dictGet d k = some x := by
  cases v with
  | jdict d => cases h : dictGet d k <;> simp [pySubscript, h, eq_comm]
  | jnull => simp [pySubscript]
  | jbool b => simp [pySubscript]
  | jint n => simp [pySubscript]
  | jstr s => simp [pySubscript]
  | jlist xs => simp [pySubscript]

lemma foldErrs_kinds {α : Type} (f : Nat → α → Except Unit (List VErr))
    (P : VErr → Prop) (hf : ∀ i x e, f i x = .ok e → ∀ v ∈ e, P v)
    (xs : List α) (i0 : Nat) (errs : List VErr)
    (h : foldErrs f i0 xs = .ok errs) : ∀ v ∈ errs, P v := by
  intro v hv
  obtain ⟨k, x, ek, _, hfk, hvk⟩ := (foldErrs_ok_mem f xs i0 errs h v).1 hv
  exact hf _ _ _ hfk v hvk

/-! ### Per-item characterisations of the validation loops -/

lemma beatItemErrs_ok_decomp (i j : Nat) (beat : JVal) (e : List VErr)
    (h : beatItemErrs i j beat = .ok e) :
    ∃ hasPrompt e2,
      pyContains beat "prompt" = .ok hasPrompt ∧
      e = (if hasPrompt then [] else [VErr.beatMissingPrompt i j]) ++ e2 ∧
      ((e2 = [VErr.beatMissingDuration i j] ∧ pyContains beat "duration" = .ok false) ∨
       (∃ dv, pyContains beat "duration" = .ok true ∧
          pySubscript beat "duration" = .ok dv ∧
          e2 = (if VALID_DURATIONS.contains (pyStr dv) then []
                else [VErr.beatBadDuration i j]))) := by
  rw [beatItemErrs] at h
  obtain ⟨hp, hc1, h2⟩ := (bind_ok_iff _ _ _).1 h
  obtain ⟨hd, hc2, h3⟩ := (bind_ok_iff _ _ _).1 h2
  obtain ⟨e2, he2, h4⟩ := (bind_ok_iff _ _ _).1 h3
  rw [pure_ok_iff] at h4
  subst h4
  refine ⟨hp, e2, hc1, rfl, ?_⟩
  cases hd with
  | false =>
    left
    rw [if_pos (show (!false) = true from rfl), pure_ok_iff] at he2
    exact ⟨he2.symm, hc2⟩
  | true =>
    right
    rw [if_neg (show ¬(!true) = true by simp)] at he2
    obtain ⟨dv, hsub, hpure⟩ := (bind_ok_iff _ _ _).1 he2
    rw [pure_ok_iff] at hpure
    exact ⟨dv, hc2, hsub, hpure.symm⟩

lemma beatItemErrs_kinds (i j : Nat) (beat : JVal) (e : List VErr)
    (h : beatItemErrs i j beat = .ok e) :
    ∀ v ∈ e, errShotIdx v = some i ∧ errBeatIdx v = some j := by
  obtain ⟨hp, e2, _, he, h2⟩ := beatItemErrs_ok_decomp i j beat e h
  subst he
  intro v hv
  rw [List.mem_append] at hv
  rcases hv with hv | hv
  · cases hp with
    | true => simp at hv
    | false =>
      simp at hv
      subst hv
      exact ⟨rfl, rfl⟩
  · rcases h2 with ⟨he2, _⟩ | ⟨dv, _, _, he2⟩ <;> subst he2
    · simp at hv
      subst hv
      exact ⟨rfl, rfl⟩
    · cases hcon : VALID_DURATIONS.contains (pyStr dv) with
      | true =>
        rw [if_pos hcon] at hv
        simp at hv
      | false =>
        rw [if_neg (by rw [hcon]; exact Bool.false_ne_true)] at hv
        simp at hv
        subst hv
        exact ⟨rfl, rfl⟩

lemma pyContains_dict (d : List (String × JVal)) (k : String) :
    pyContains (.jdict d) k = .ok (dictGet d k).isSome := rfl

lemma beatItemErrs_badDuration (i j j' : Nat) (beat : JVal) (e : List VErr)
    (h : beatItemErrs i j beat = .ok e) :
    VErr.beatBadDuration i j' ∈ e ↔
      (j' = j ∧ ∃ dv, pySubscript beat "duration" = .ok dv ∧
        ¬ VALID_DURATIONS.contains (pyStr dv)) := by
  obtain ⟨hp, e2, _, he, h2⟩ := beatItemErrs_ok_decomp i j beat e h
  subst he
  rw [List.mem_append]
  constructor
  · rintro (hv | hv)
    · cases hp <;> simp at hv
    · rcases h2 with ⟨he2, _⟩ | ⟨dv, _, hsub, he2⟩ <;> subst he2
      · simp at hv
      · cases hcon : VALID_DURATIONS.contains (pyStr dv) with
        | true =>
          rw [if_pos hcon] at hv
          simp at hv
        | false =>
          rw [if_neg (by rw [hcon]; exact Bool.false_ne_true)] at hv
          simp at hv
          exact ⟨hv, dv, hsub, by rw [hcon]; exact Bool.false_ne_true⟩
  · rintro ⟨hj, dv, hsub, hc⟩
    subst hj
    rcases h2 with ⟨he2, hcf⟩ | ⟨dv', _, hsub', he2⟩
    · exfalso
      obtain ⟨d, hbeat, hget⟩ := (pySubscript_ok_iff _ _ _).1 hsub
      subst hbeat
      rw [pyContains_dict, hget] at hcf
      simp at hcf
    · subst he2
      rw [hsub'] at hsub
      injection hsub with hdd
      subst hdd
      right
      rw [if_neg hc]
      simp

lemma passItemErrs_kinds (i p : Nat) (kp : JVal) (e : List VErr)
    (h : passItemErrs i p kp = .ok e) :
    ∀ v ∈ e, v = VErr.passMissingPrompt i p ∨ v = VErr.passMissingChars i p := by
  rw [passItemErrs] at h
  obtain ⟨hp, _, h2⟩ := (bind_ok_iff _ _ _).1 h
  obtain ⟨hc, _, h3⟩ := (bind_ok_iff _ _ _).1 h2
  obtain ⟨e2, he2, h4⟩ := (bind_ok_iff _ _ _).1 h3
  rw [pure_ok_iff] at h4
  subst h4
  intro v hv
  rw [List.mem_append] at hv
  rcases hv with hv | hv
  · cases hp with
    | true => simp at hv
    | false =>
      simp at hv
      exact Or.inl hv
  · cases hc with
    | false =>
      rw [if_pos (show (!false) = true from rfl), pure_ok_iff] at he2
      subst he2
      simp at hv
      exact Or.inr hv
    | true =>
      rw [if_neg (show ¬(!true) = true by simp)] at he2
      obtain ⟨cv, _, hpure⟩ := (bind_ok_iff _ _ _).1 he2
      rw [pure_ok_iff] at hpure
      subst hpure
      cases cv <;> simp at hv <;> exact Or.inr hv

/-! ### Shot-level characterisations -/

lemma passesCheck_kinds (i : Nat) (v0 : JVal) (e : List VErr)
    (h : passesCheck i v0 = .ok e) :
    ∀ v ∈ e, v = VErr.shotBadPasses i ∨
      ∃ p, v = VErr.passMissingPrompt i p ∨ v = VErr.passMissingChars i p := by
  cases v0
  case jlist ps =>
    rw [passesCheck] at h
    by_cases hlen : ps.length < 2
    · rw [if_pos hlen, pure_ok_iff] at h
      subst h
      intro v hv
      simp at hv
      subst hv
      exact Or.inl rfl
    · rw [if_neg hlen] at h
      intro v hv
      refine Or.inr (foldErrs_kinds (passItemErrs i)
        (fun v => ∃ p, v = VErr.passMissingPrompt i p ∨ v = VErr.passMissingChars i p)
        ?_ ps 0 e h v hv)
      intro q kp ek hek v' hv'
      rcases passItemErrs_kinds i q kp ek hek v' hv' with h' | h'
      · exact ⟨q, Or.inl h'⟩
      · exact ⟨q, Or.inr h'⟩
  all_goals
    replace h : (pure [VErr.shotBadPasses i] : Except Unit (List VErr)) = .ok e := h
    rw [pure_ok_iff] at h
    subst h
    intro v hv
    simp at hv
    subst hv
    exact Or.inl rfl

lemma beatsCheck_kinds (i : Nat) (v0 : JVal) (e : List VErr)
    (h : beatsCheck i v0 = .ok e) :
    ∀ v ∈ e, v = VErr.shotBadBeats i ∨
      (errShotIdx v = some i ∧ errBeatIdx v ≠ none) := by
  cases v0
  case jlist bs =>
    rw [beatsCheck] at h
    by_cases hlen : bs.length < 1
    · rw [if_pos hlen, pure_ok_iff] at h
      subst h
      intro v hv
      simp at hv
      subst hv
      exact Or.inl rfl
    · rw [if_neg hlen] at h
      intro v hv
      refine Or.inr (foldErrs_kinds (beatItemErrs i)
        (fun v => errShotIdx v = some i ∧ errBeatIdx v ≠ none) ?_ bs 0 e h v hv)
      intro q beat ek hek v' hv'
      obtain ⟨h1, h2⟩ := beatItemErrs_kinds i q beat ek hek v' hv'
      exact ⟨h1, by rw [h2]; simp⟩
  all_goals
    replace h : (pure [VErr.shotBadBeats i] : Except Unit (List VErr)) = .ok e := h
    rw [pure_ok_iff] at h
    subst h
    intro v hv
    simp at hv
    subst hv
    exact Or.inl rfl

lemma beatsCheck_badDuration (i j : Nat) (bs : List JVal) (e : List VErr)
    (h : beatsCheck i (.jlist bs) = .ok e) (hbs : bs ≠ []) :
    (VErr.beatBadDuration i j ∈ e ↔
      ∃ beat dv, bs.get? j = some beat ∧ pySubscript beat "duration" = .ok dv ∧
        ¬ VALID_DURATIONS.contains (pyStr dv)) := by
  rw [beatsCheck] at h
  rw [if_neg (by have h0 : 0 < bs.length := List.length_pos.2 hbs; omega)] at h
  constructor
  · intro hv
    obtain ⟨k, beat, ek, hget, hek, hvk⟩ :=
      (foldErrs_ok_mem (beatItemErrs i) bs 0 e h _).1 hv
    obtain ⟨hj, dv, hsub, hc⟩ := (beatItemErrs_badDuration i (0 + k) j beat ek hek).1 hvk
    subst hj
    exact ⟨beat, dv, by simpa using hget, hsub, hc⟩
  · rintro ⟨beat, dv, hget, hsub, hc⟩
    obtain ⟨ek, hek, hsubset⟩ := foldErrs_ok_each (beatItemErrs i) bs 0 e h j beat hget
    refine hsubset ((beatItemErrs_badDuration i (0 + j) j beat ek hek).2 ⟨by omega, dv, hsub, hc⟩)

lemma anchorCheck_nonneg_mem (i : Nat) (av : JVal) :
    VErr.anchorNotNonnegInt i ∈ anchorCheck i av ↔
      (!pyIsInt av || pyToInt av < 0) = true := by
  rw [anchorCheck]
  by_cases hb : (!pyIsInt av || pyToInt av < 0 : Bool) = true
  · rw [if_pos hb]
    simp [hb]
  · rw [if_neg hb]
    by_cases ha : (i : Int) ≤ pyToInt av
    · rw [if_pos (by simp [ha])]
      simp [hb]
    · rw [if_neg (by simp [ha])]
      simp [hb]

lemma anchorCheck_earlier_mem (i : Nat) (av : JVal) :
    VErr.anchorNotEarlier i ∈ anchorCheck i av ↔
      ((!pyIsInt av || pyToInt av < 0) = false ∧ (i : Int) ≤ pyToInt av) := by
  rw [anchorCheck]
  by_cases hb : (!pyIsInt av || pyToInt av < 0 : Bool) = true
  · rw [if_pos hb]
    simp [hb]
  · rw [if_neg hb]
    by_cases ha : (i : Int) ≤ pyToInt av
    · rw [if_pos (by simp [ha])]
      simp [hb, ha]
    · rw [if_neg (by simp [ha])]
      simp [ha]

lemma anchorCheck_kinds (i : Nat) (av : JVal) :
    ∀ v ∈ anchorCheck i av,
      v = VErr.anchorNotNonnegInt i ∨ v = VErr.anchorNotEarlier i := by
  intro v hv
  rw [anchorCheck] at hv
  by_cases hb : (!pyIsInt av || pyToInt av < 0 : Bool) = true
  · rw [if_pos hb] at hv
    simp at hv
    exact Or.inl hv
  · rw [if_neg hb] at hv
    by_cases ha : (i : Int) ≤ pyToInt av
    · rw [if_pos (by simp [ha])] at hv
      simp at hv
      exact Or.inr hv
    · rw [if_neg (by simp [ha])] at hv
      simp at hv

lemma shotItemErrs_ok_parts (i : Nat) (shot : JVal) (e : List VErr)
    (h : shotItemErrs i shot = .ok e) :
    ∃ (hasLayout hasKeyframe hasPasses hasAnchor hasBeats : Bool)
      (e3 e4 e5 : List VErr),
      pyContains shot "anchor_keyframe" = .ok hasAnchor ∧
      pyContains shot "beats" = .ok hasBeats ∧
      e = (if hasLayout then ([] : List VErr) else [VErr.shotMissingLayoutPrompt i]) ++
          (if !hasKeyframe && !hasPasses then [VErr.shotMissingKeyframe i]
           else ([] : List VErr)) ++ e3 ++ e4 ++ e5 ∧
      (∀ v ∈ e3, v = VErr.shotBadPasses i ∨
        ∃ p, v = VErr.passMissingPrompt i p ∨ v = VErr.passMissingChars i p) ∧
      (hasAnchor = false → e4 = []) ∧
      (hasAnchor = true →
        ∃ av, pySubscript shot "anchor_keyframe" = .ok av ∧ e4 = anchorCheck i av) ∧
      (hasBeats = false → e5 = [VErr.shotMissingBeats i]) ∧
      (hasBeats = true →
        ∃ bv, pySubscript shot "beats" = .ok bv ∧ beatsCheck i bv = .ok e5) := by
  rw [shotItemErrs] at h
  obtain ⟨hasLayout, hcl, h2⟩ := (bind_ok_iff _ _ _).1 h
  obtain ⟨hasKeyframe, hck, h3⟩ := (bind_ok_iff _ _ _).1 h2
  obtain ⟨hasPasses, hcp, h4⟩ := (bind_ok_iff _ _ _).1 h3
  obtain ⟨e3, he3, h5⟩ := (bind_ok_iff _ _ _).1 h4
  obtain ⟨hasAnchor, hca, h6⟩ := (bind_ok_iff _ _ _).1 h5
  obtain ⟨e4, he4, h7⟩ := (bind_ok_iff _ _ _).1 h6
  obtain ⟨hasBeats, hcb, h8⟩ := (bind_ok_iff _ _ _).1 h7
  obtain ⟨e5, he5, h9⟩ := (bind_ok_iff _ _ _).1 h8
  rw [pure_ok_iff] at h9
  subst h9
  refine ⟨hasLayout, hasKeyframe, hasPasses, hasAnchor, hasBeats, e3, e4, e5,
    hca, hcb, rfl, ?_, ?_, ?_, ?_, ?_⟩
  · cases hasPasses with
    | false =>
      rw [if_neg (by exact Bool.false_ne_true), pure_ok_iff] at he3
      subst he3
      intro v hv
      simp at hv
    | true =>
      rw [if_pos rfl] at he3
      obtain ⟨passes, _, hchk⟩ := (bind_ok_iff _ _ _).1 he3
      exact passesCheck_kinds i passes e3 hchk
  · intro hA
    subst hA
    rw [if_neg (by exact Bool.false_ne_true), pure_ok_iff] at he4
    exact he4.symm
  · intro hA
    subst hA
    rw [if_pos rfl] at he4
    obtain ⟨av, hsub, hpure⟩ := (bind_ok_iff _ _ _).1 he4
    rw [pure_ok_iff] at hpure
    exact ⟨av, hsub, hpure.symm⟩
  · intro hB
    subst hB
    rw [if_pos (show (!false) = true from rfl), pure_ok_iff] at he5
    exact he5.symm
  · intro hB
    subst hB
    rw [if_neg (show ¬(!true) = true by simp)] at he5
    obtain ⟨bv, hsub, hchk⟩ := (bind_ok_iff _ _ _).1 he5
    exact ⟨bv, hsub, hchk⟩

lemma shotItemErrs_idx (i : Nat) (shot : JVal) (e : List VErr)
    (h : shotItemErrs i shot = .ok e) :
    ∀ v ∈ e, errShotIdx v = some i := by
  obtain ⟨hL, hK, hP, hA, hB, e3, e4, e5, _, _, he, k3, ha0, ha1, hb0, hb1⟩ :=
    shotItemErrs_ok_parts i shot e h
  subst he
  intro v hv
  simp only [List.append_assoc, List.mem_append] at hv
  rcases hv with hv | hv | hv | hv | hv
  · cases hL <;> simp at hv <;> subst hv <;> rfl
  · rcases hx : (!hK && !hP : Bool) with _ | _ <;> rw [hx] at hv <;> simp at hv
    subst hv
    rfl
  · rcases k3 v hv with h' | ⟨p, h' | h'⟩ <;> subst h' <;> rfl
  · cases hA with
    | false => rw [ha0 rfl] at hv; simp at hv
    | true =>
      obtain ⟨av, _, he4⟩ := ha1 rfl
      subst he4
      rcases anchorCheck_kinds i av v hv with h' | h' <;> subst h' <;> rfl
  · cases hB with
    | false =>
      rw [hb0 rfl] at hv
      simp at hv
      subst hv
      rfl
    | true =>
      obtain ⟨bv, _, hchk⟩ := hb1 rfl
      rcases beatsCheck_kinds i bv e5 hchk v hv with h' | ⟨h', _⟩
      · subst h'
        rfl
      · exact h'

lemma charDefErrs_kinds (pe : JVal → Bool) (cname : String) (cdef : JVal)
    (e : List VErr) (h : charDefErrs pe cname cdef = .ok e) :
    ∀ v ∈ e, errShotIdx v = none := by
  rw [charDefErrs] at h
  obtain ⟨hasRef, _, h2⟩ := (bind_ok_iff _ _ _).1 h
  obtain ⟨e1, he1, h3⟩ := (bind_ok_iff _ _ _).1 h2
  obtain ⟨hasBT, _, h4⟩ := (bind_ok_iff _ _ _).1 h3
  obtain ⟨e2, he2, h5⟩ := (bind_ok_iff _ _ _).1 h4
  rw [pure_ok_iff] at h5
  subst h5
  intro v hv
  rw [List.mem_append] at hv
  rcases hv with hv | hv
  · cases hasRef with
    | false =>
      rw [if_pos (show (!false) = true from rfl), pure_ok_iff] at he1
      subst he1
      simp at hv
      subst hv
      rfl
    | true =>
      rw [if_neg (show ¬(!true) = true by simp)] at he1
      obtain ⟨rv, _, hpure⟩ := (bind_ok_iff _ _ _).1 he1
      rw [pure_ok_iff] at hpure
      subst hpure
      by_cases hpe : pe rv
      · rw [if_pos hpe] at hv
        simp at hv
      · rw [if_neg hpe] at hv
        simp at hv
        subst hv
        rfl
  · cases hasBT with
    | false =>
      rw [if_pos (show (!false) = true from rfl), pure_ok_iff] at he2
      subst he2
      simp at hv
    | true =>
      rw [if_neg (show ¬(!true) = true by simp)] at he2
      obtain ⟨bv, _, h6⟩ := (bind_ok_iff _ _ _).1 he2
      obtain ⟨inSet, _, hpure⟩ := (bind_ok_iff _ _ _).1 h6
      rw [pure_ok_iff] at hpure
      subst hpure
      cases inSet with
      | true =>
        rw [if_pos rfl] at hv
        simp at hv
      | false =>
        rw [if_neg (by exact Bool.false_ne_true)] at hv
        simp at hv
        subst hv
        rfl

lemma validate_ok_split (pe : JVal → Bool) (sb : List (String × JVal))
    (valid : Bool) (errs : List VErr)
    (h : validate_storyboard pe sb = .ok (valid, errs)) :
    ∃ ePre eShots,
      errs = ePre ++ eShots ∧
      (∀ v ∈ ePre, errShotIdx v = none) ∧
      (∀ xs, shotsOf sb = some xs → shotsErrs 0 xs = .ok eShots) ∧
      (valid = true ↔ errs = []) := by
  rw [validate_storyboard] at h
  obtain ⟨inEngines, _, h2⟩ := (bind_ok_iff _ _ _).1 h
  obtain ⟨e4, he4, h3⟩ := (bind_ok_iff _ _ _).1 h2
  obtain ⟨e5, he5, h4⟩ := (bind_ok_iff _ _ _).1 h3
  rw [pure_ok_iff] at h4
  cases h4
  refine ⟨_, e5, rfl, ?_, ?_, by simp [List.isEmpty_iff]⟩
  · intro v hv
    simp only [List.mem_append] at hv
    rcases hv with (((hv | hv) | hv) | hv)
    · by_cases hn : (dictGet sb "name").isNone <;>
        [rw [if_pos hn] at hv; rw [if_neg hn] at hv] <;> simp at hv
      subst hv
      rfl
    · rcases hs : dictGet sb "shots" with _ | v0
      · rw [hs] at hv
        simp at hv
        subst hv
        rfl
      · rw [hs] at hv
        cases v0
        case jlist xs =>
          replace hv : v ∈ (if xs.length < 1 then [VErr.shotsNotList] else []) := hv
          by_cases hl : xs.length < 1
          · rw [if_pos hl] at hv
            simp at hv
            subst hv
            rfl
          · rw [if_neg hl] at hv
            simp at hv
        all_goals
          replace hv : v ∈ [VErr.shotsNotList] := hv
          simp at hv
          subst hv
          rfl
    · cases inEngines with
      | true =>
        rw [if_pos rfl] at hv
        simp at hv
      | false =>
        rw [if_neg (by exact Bool.false_ne_true)] at hv
        simp at hv
        subst hv
        rfl
    · by_cases hfal : pyFalsy ((dictGet sb "characters").getD (.jdict []))
      · rw [if_pos hfal, pure_ok_iff] at he4
        subst he4
        simp at hv
        subst hv
        rfl
      · rw [if_neg hfal] at he4
        cases hcv : (dictGet sb "characters").getD (.jdict []) with
        | jdict cs =>
          rw [hcv] at he4
          replace he4 : charErrs pe cs = Except.ok e4 := he4
          rw [charErrs] at he4
          exact foldErrs_kinds _ (fun v => errShotIdx v = none)
            (fun _ p e hp => charDefErrs_kinds pe p.1 p.2 e hp) cs 0 e4 he4 v hv
        | jnull =>
          rw [hcv] at he4
          replace he4 : (Except.error () : Except Unit (List VErr)) = Except.ok e4 := he4
          simp at he4
        | jbool b =>
          rw [hcv] at he4
          replace he4 : (Except.error () : Except Unit (List VErr)) = Except.ok e4 := he4
          simp at he4
        | jint n =>
          rw [hcv] at he4
          replace he4 : (Except.error () : Except Unit (List VErr)) = Except.ok e4 := he4
          simp at he4
        | jstr s =>
          rw [hcv] at he4
          replace he4 : (Except.error () : Except Unit (List VErr)) = Except.ok e4 := he4
          simp at he4
        | jlist l =>
          rw [hcv] at he4
          replace he4 : (Except.error () : Except Unit (List VErr)) = Except.ok e4 := he4
          simp at he4
  · intro xs hxs
    rw [shotsOf] at hxs
    rcases hs : dictGet sb "shots" with _ | v0 <;> rw [hs] at hxs he5
    · simp at hxs
    · cases v0 <;> simp at hxs
      case jlist xs' =>
        subst hxs
        exact he5

lemma validate_shot_mem (pe : JVal → Bool) (sb : List (String × JVal))
    (valid : Bool) (errs : List VErr) (shotsL : List JVal) (i : Nat)
    (sd : List (String × JVal))
    (hok : validate_storyboard pe sb = .ok (valid, errs))
    (hshots : shotsOf sb = some shotsL)
    (hshot : shotsL.get? i = some (.jdict sd)) :
    ∃ ek, shotItemErrs i (.jdict sd) = .ok ek ∧
      ∀ c, errShotIdx c = some i → (c ∈ errs ↔ c ∈ ek) := by
  obtain ⟨ePre, eShots, herrs, hpre, hsh, _⟩ := validate_ok_split pe sb valid errs hok
  have hse : shotsErrs 0 shotsL = .ok eShots := hsh shotsL hshots
  rw [shotsErrs] at hse
  obtain ⟨ek, hitem, hsub⟩ := foldErrs_ok_each shotItemErrs shotsL 0 eShots hse i _ hshot
  simp only [Nat.zero_add] at hitem
  refine ⟨ek, hitem, fun c hc => ?_⟩
  constructor
  · intro hin
    rw [herrs, List.mem_append] at hin
    rcases hin with hin | hin
    · rw [hpre c hin] at hc
      cases hc
    · obtain ⟨k, shot, ek', hget, hitem', hvk⟩ :=
        (foldErrs_ok_mem shotItemErrs shotsL 0 eShots hse c).1 hin
      simp only [Nat.zero_add] at hitem'
      have hidx := shotItemErrs_idx k shot ek' hitem' c hvk
      rw [hc] at hidx
      have hki : k = i := by injection hidx with h'; omega
      subst hki
      rw [hshot] at hget
      injection hget with hget'
      subst hget'
      rw [hitem] at hitem'
      injection hitem' with h'
      subst h'
      exact hvk
  · intro hin
    rw [herrs, List.mem_append]
    exact Or.inr (hsub hin)

lemma xfadeGo_pos_get (crossfade : ℚ) :
    ∀ (l : List ℚ) (i : Nat) (acc : ℚ) (k : Nat), i ≠ 0 → k < l.length →
      (xfadeGo crossfade i acc l).get? k =
        some (acc + (l.take (k + 1)).sum - (k + 2) * crossfade) := by
  intro l
  induction l with
  | nil => intro i acc k _ hk; simp at hk
  | cons d rest ih =>
    intro i acc k hi hk
    cases k with
    | zero =>
      simp [xfadeGo, hi]
      ring
    | succ k =>
      have hrec : (xfadeGo crossfade i acc (d :: rest)).get? (k + 1) =
          (xfadeGo crossfade (i + 1) (acc + d - crossfade) rest).get? k := by
        simp [xfadeGo, hi]
      rw [hrec, ih (i + 1) (acc + d - crossfade) k (Nat.succ_ne_zero i)
        (by simpa using Nat.lt_of_succ_lt_succ hk)]
      simp only [List.take_succ_cons, List.sum_cons]
      congr 1
      push_cast
      ring

/-- C10: in `_stitch_clips` with crossfade `f > 0` and content durations
`c_0 .. c_(n-1)`, the xfade offset for the `i`-th transition (`i = 1 .. n-1`)
equals `(c_0 + ... + c_(i-1)) - i*f`. -/
theorem c10_xfade_offset_formula (durs : List ℚ) (crossfade : ℚ) (i : Nat)
    (h1 : 1 ≤ i) (h2 : i < durs.length) :
    (xfadeOffsets durs crossfade).get? (i - 1) =
      some ((durs.take i).sum - i * crossfade) := by
  have hne : durs ≠ [] := by
    intro h; rw [h] at h2; simp at h2
  have hlen : durs.dropLast.length = durs.length - 1 := by
    simp
  have htake : durs.take i = durs.dropLast.take i := by
    conv_lhs => rw [← List.dropLast_append_getLast hne]
    exact List.take_append_of_le_length (by omega)
  rw [xfadeOffsets, htake]
  rcases hl : durs.dropLast with _ | ⟨d, rest⟩
  · exfalso
    have : durs.dropLast.length = 0 := by rw [hl]; rfl
    omega
  · have hrestlen : rest.length = durs.length - 2 := by
      have := hlen
      rw [hl] at this
      simp at this
      omega
    rcases eq_or_lt_of_le h1 with h1' | h1'
    · subst h1'
      simp [xfadeGo]
    · obtain ⟨j, rfl⟩ : ∃ j, i = j + 2 := ⟨i - 2, by omega⟩
      have hstep : (xfadeGo crossfade 0 0 (d :: rest)).get? (j + 2 - 1) =
          (xfadeGo crossfade 1 (0 + d) rest).get? j := by
        simp [xfadeGo]
      rw [hstep, xfadeGo_pos_get crossfade rest 1 (0 + d) j one_ne_zero (by omega)]
      congr 1
      have htk : List.take (j + 2) (d :: rest) = d :: List.take (j + 1) rest := rfl
      rw [htk, List.sum_cons]
      push_cast
      ring

/-- Witness for C10 at a concrete input: three clips of 6s, 5s and 4s with a
half-second crossfade; the second transition sits at 6 + 5 - 2*0.5. -/
theorem c10_xfade_offset_formula_witness :
    (xfadeOffsets [6, 5, 4] (1/2)).get? 1 =
      some ((([6, 5, 4] : List ℚ).take 2).sum - 2 * (1/2)) :=
  c10_xfade_offset_formula [6, 5, 4] (1/2) 2 (by norm_num) (by norm_num)

/-- C9: for every shot at 0-based index `i` that carries an `anchor_keyframe`
field, `validate_storyboard` accepts the field without error exactly when its
value is an integer `a` with `0 ≤ a < i` (booleans count as integers in
Python); in particular shot 0 can never carry a valid `anchor_keyframe`. -/
theorem c9_anchor_keyframe_validation
    (pe : JVal → Bool) (sb : List (String × JVal)) (valid : Bool) (errs : List VErr)
    (shotsL : List JVal) (i : Nat) (sd : List (String × JVal)) (av : JVal)
    (hok : validate_storyboard pe sb = .ok (valid, errs))
    (hshots : shotsOf sb = some shotsL)
    (hshot : shotsL.get? i = some (.jdict sd))
    (hav : dictGet sd "anchor_keyframe" = some av) :
    ((VErr.anchorNotNonnegInt i ∉ errs ∧ VErr.anchorNotEarlier i ∉ errs) ↔
      (pyIsInt av = true ∧ 0 ≤ pyToInt av ∧ pyToInt av < (i : Int))) ∧
    (i = 0 → VErr.anchorNotNonnegInt 0 ∈ errs ∨ VErr.anchorNotEarlier 0 ∈ errs) := by
  obtain ⟨ek, hitem, hmem⟩ := validate_shot_mem pe sb valid errs shotsL i sd hok hshots hshot
  obtain ⟨hL, hK, hP, hA, hB, e3, e4, e5, hca, hcb, he, k3, ha0, ha1, hb0, hb1⟩ :=
    shotItemErrs_ok_parts i _ ek hitem
  have hA1 : hA = true := by
    rw [pyContains_dict, hav] at hca
    injection hca with h'
    exact h'.symm
  obtain ⟨av', hsub, he4⟩ := ha1 hA1
  obtain ⟨d, hd, hget'⟩ := (pySubscript_ok_iff _ _ _).1 hsub
  injection hd with hd'
  subst hd'
  rw [hav] at hget'
  injection hget' with hav'
  subst hav'
  subst he4
  have hanchor_mem : ∀ c, (c = VErr.anchorNotNonnegInt i ∨ c = VErr.anchorNotEarlier i) →
      (c ∈ ek ↔ c ∈ anchorCheck i av) := by
    intro c hc
    rw [he]
    simp only [List.mem_append]
    constructor
    · rintro ((((hv | hv) | hv) | hv) | hv)
      · rcases hc with hc | hc <;> subst hc <;> cases hL <;> simp at hv
      · rcases hc with hc | hc <;> subst hc <;>
          rcases hx : (!hK && !hP : Bool) with _ | _ <;> rw [hx] at hv <;> simp at hv
      · exfalso
        rcases k3 c hv with h' | ⟨p, h' | h'⟩ <;> rcases hc with hc | hc <;>
          subst hc <;> simp at h'
      · exact hv
      · exfalso
        cases hB with
        | false =>
          rw [hb0 rfl] at hv
          rcases hc with hc | hc <;> subst hc <;> simp at hv
        | true =>
          obtain ⟨bv, _, hchk⟩ := hb1 rfl
          rcases beatsCheck_kinds i bv e5 hchk c hv with h' | ⟨_, h2⟩
          · rcases hc with hc | hc <;> subst hc <;> simp at h'
          · rcases hc with hc | hc <;> subst hc <;> simp [errBeatIdx] at h2
    · intro hv
      exact Or.inl (Or.inr hv)
  have hnn : VErr.anchorNotNonnegInt i ∈ errs ↔
      (!pyIsInt av || pyToInt av < 0 : Bool) = true := by
    rw [hmem (VErr.anchorNotNonnegInt i) rfl, hanchor_mem _ (Or.inl rfl),
      anchorCheck_nonneg_mem]
  have hne : VErr.anchorNotEarlier i ∈ errs ↔
      ((!pyIsInt av || pyToInt av < 0 : Bool) = false ∧ (i : Int) ≤ pyToInt av) := by
    rw [hmem (VErr.anchorNotEarlier i) rfl, hanchor_mem _ (Or.inr rfl),
      anchorCheck_earlier_mem]
  have hiff : (VErr.anchorNotNonnegInt i ∉ errs ∧ VErr.anchorNotEarlier i ∉ errs) ↔
      (pyIsInt av = true ∧ 0 ≤ pyToInt av ∧ pyToInt av < (i : Int)) := by
    simp only [hnn, hne]
    cases hpi : pyIsInt av <;>
      simp [hpi, Bool.or_eq_true, decide_eq_true_eq] <;> omega
  refine ⟨hiff, ?_⟩
  intro h0
  subst h0
  by_contra hcon
  push_neg at hcon
  obtain ⟨_, h1, h2⟩ := hiff.1 ⟨hcon.1, hcon.2⟩
  omega

/-- Witness for C9: a two-shot storyboard whose second shot anchors on shot 0;
validation yields no errors and the acceptance condition `0 ≤ 0 < 1` holds. -/
theorem c9_anchor_keyframe_validation_witness :
    (VErr.anchorNotNonnegInt 1 ∉ ([] : List VErr) ∧
      VErr.anchorNotEarlier 1 ∉ ([] : List VErr)) ↔
      (pyIsInt (.jint 0) = true ∧ 0 ≤ pyToInt (.jint 0) ∧ pyToInt (.jint 0) < (1 : Int)) :=
  (c9_anchor_keyframe_validation (fun _ => true) sampleStoryboard true []
    [sampleShot0, sampleShot1] 1
    [("layout_prompt", .jstr "close shot"), ("keyframe_prompt", .jstr "hero again"),
     ("anchor_keyframe", .jint 0), ("beats", .jlist [sampleBeat])] (.jint 0)
    (by rfl) (by rfl) (by rfl) (by rfl)).1

/-- C3: `validate_storyboard` reports a duration error for a beat exactly when
the beat has a `duration` whose `str()` conversion is not in the enumerated
set `VALID_DURATIONS`; and a storyboard that validates successfully has, in
every beat of every shot, a `duration` whose `str()` is in that set. -/
theorem c3_duration_validation
    (pe : JVal → Bool) (sb : List (String × JVal)) (valid : Bool) (errs : List VErr)
    (hok : validate_storyboard pe sb = .ok (valid, errs)) :
    (∀ shotsL i sd bs j bd dv,
      shotsOf sb = some shotsL → shotsL.get? i = some (.jdict sd) →
      dictGet sd "beats" = some (.jlist bs) → bs.get? j = some (.jdict bd) →
      dictGet bd "duration" = some dv →
      (VErr.beatBadDuration i j ∈ errs ↔ ¬ VALID_DURATIONS.contains (pyStr dv) = true)) ∧
    (valid = true →
      ∀ shotsL i sd, shotsOf sb = some shotsL → shotsL.get? i = some (.jdict sd) →
      ∃ bs, dictGet sd "beats" = some (.jlist bs) ∧ bs ≠ [] ∧
        ∀ j b, bs.get? j = some b →
          ∃ bd dv, b = .jdict bd ∧ dictGet bd "duration" = some dv ∧
            VALID_DURATIONS.contains (pyStr dv) = true) := by
  constructor
  · intro shotsL i sd bs j bd dv hshots hshot hbeats hbsj hdv
    obtain ⟨ek, hitem, hmem⟩ := validate_shot_mem pe sb valid errs shotsL i sd hok hshots hshot
    rw [hmem (VErr.beatBadDuration i j) rfl]
    obtain ⟨hL, hK, hP, hA, hB, e3, e4, e5, hca, hcb, he, k3, ha0, ha1, hb0, hb1⟩ :=
      shotItemErrs_ok_parts i _ ek hitem
    have hB1 : hB = true := by
      rw [pyContains_dict, hbeats] at hcb
      injection hcb with h'
      exact h'.symm
    obtain ⟨bv, hsubB, hchk⟩ := hb1 hB1
    obtain ⟨d, hd, hget'⟩ := (pySubscript_ok_iff _ _ _).1 hsubB
    injection hd with hd'
    subst hd'
    rw [hbeats] at hget'
    injection hget' with hbv'
    subst hbv'
    have hbsne : bs ≠ [] := by
      intro hnil
      rw [hnil] at hbsj
      simp at hbsj
    rw [he]
    simp only [List.mem_append]
    constructor
    · rintro ((((hv | hv) | hv) | hv) | hv)
      · cases hL <;> simp at hv
      · rcases hx : (!hK && !hP : Bool) with _ | _ <;> rw [hx] at hv <;> simp at hv
      · exfalso
        rcases k3 _ hv with h' | ⟨p, h' | h'⟩ <;> simp at h'
      · exfalso
        cases hA with
        | false =>
          rw [ha0 rfl] at hv
          simp at hv
        | true =>
          obtain ⟨av, _, he4⟩ := ha1 rfl
          subst he4
          rcases anchorCheck_kinds i av _ hv with h' | h' <;> simp at h'
      · obtain ⟨beat, dv', hgetj, hsubD, hc⟩ :=
          (beatsCheck_badDuration i j bs e5 hchk hbsne).1 hv
        rw [hbsj] at hgetj
        injection hgetj with hbeat'
        subst hbeat'
        obtain ⟨bd', hbd, hgd⟩ := (pySubscript_ok_iff _ _ _).1 hsubD
        injection hbd with hbd'
        subst hbd'
        rw [hdv] at hgd
        injection hgd with hdv'
        subst hdv'
        exact hc
    · intro hnc
      refine Or.inr ((beatsCheck_badDuration i j bs e5 hchk hbsne).2
        ⟨.jdict bd, dv, hbsj, (pySubscript_ok_iff _ _ _).2 ⟨bd, rfl, hdv⟩, hnc⟩)
  · intro hval shotsL i sd hshots hshot
    obtain ⟨ePre, eShots, herrs, _, hsh, hvalid⟩ := validate_ok_split pe sb valid errs hok
    have herrnil : errs = [] := hvalid.1 hval
    rw [herrnil] at herrs
    obtain ⟨hPnil, hSnil⟩ := List.append_eq_nil.1 herrs.symm
    have hse := hsh shotsL hshots
    rw [hSnil, shotsErrs] at hse
    obtain ⟨ek, hitem, hsubek⟩ := foldErrs_ok_each shotItemErrs shotsL 0 [] hse i _ hshot
    have hek : ek = [] := List.subset_nil.1 hsubek
    subst hek
    simp only [Nat.zero_add] at hitem
    obtain ⟨hL, hK, hP, hA, hB, e3, e4, e5, hca, hcb, he, k3, ha0, ha1, hb0, hb1⟩ :=
      shotItemErrs_ok_parts i _ [] hitem
    have he5nil : e5 = [] := by
      have h1 := List.append_eq_nil.1 he.symm
      exact h1.2
    have hB1 : hB = true := by
      cases hB with
      | true => rfl
      | false =>
        have := hb0 rfl
        rw [he5nil] at this
        simp at this
    obtain ⟨bv, hsubB, hchk⟩ := hb1 hB1
    obtain ⟨d, hd, hget'⟩ := (pySubscript_ok_iff _ _ _).1 hsubB
    injection hd with hd'
    subst hd'
    rw [he5nil] at hchk
    cases bv
    case jlist bs =>
      rw [beatsCheck] at hchk
      by_cases hlen : bs.length < 1
      · rw [if_pos hlen, pure_ok_iff] at hchk
        simp at hchk
      · rw [if_neg hlen] at hchk
        refine ⟨bs, hget', by intro hnil; rw [hnil] at hlen; simp at hlen, ?_⟩
        intro j b hgetj
        rw [beatErrs] at hchk
        obtain ⟨ek2, hitem2, hsub2⟩ :=
          foldErrs_ok_each (beatItemErrs i) bs 0 [] hchk j b hgetj
        have hek2 : ek2 = [] := List.subset_nil.1 hsub2
        subst hek2
        obtain ⟨hp, e2, _, heq, h2⟩ := beatItemErrs_ok_decomp i (0 + j) b [] hitem2
        have he2nil : e2 = [] := (List.append_eq_nil.1 heq.symm).2
        rcases h2 with ⟨he2, _⟩ | ⟨dv, _, hsubD, he2⟩
        · rw [he2nil] at he2
          simp at he2
        · obtain ⟨bd, hbd, hgd⟩ := (pySubscript_ok_iff _ _ _).1 hsubD
          refine ⟨bd, dv, hbd, hgd, ?_⟩
          cases hcon : VALID_DURATIONS.contains (pyStr dv) with
          | true => rfl
          | false =>
            rw [he2nil, if_neg (by rw [hcon]; exact Bool.false_ne_true)] at he2
            simp at he2
    all_goals
      replace hchk : (pure [VErr.shotBadBeats i] : Except Unit (List VErr)) = .ok [] := hchk
      rw [pure_ok_iff] at hchk
      simp at hchk

/-- Witness for C3: in the sample storyboard, beat 0 of shot 0 has duration
`"5"` which is in the valid set, and no duration error is reported. -/
theorem c3_duration_validation_witness :
    VErr.beatBadDuration 0 0 ∈ ([] : List VErr) ↔
      ¬ VALID_DURATIONS.contains (pyStr (.jstr "5")) = true :=
  (c3_duration_validation (fun _ => true) sampleStoryboard true [] (by rfl)).1
    [sampleShot0, sampleShot1] 0
    [("layout_prompt", .jstr "wide shot"), ("keyframe_prompt", .jstr "hero"),
     ("beats", .jlist [sampleBeat])]
    [sampleBeat] 0 [("prompt", .jstr "walks"), ("duration", .jstr "5")] (.jstr "5")
    (by rfl) (by rfl) (by rfl) (by rfl) (by rfl)

lemma nbRetryFrom_calls_le (attempts : Nat → AttemptRes) (maxRetries : Nat) :
    ∀ fuel i waits, maxRetries - i ≤ fuel → i < maxRetries →
      (nbRetryFrom attempts maxRetries i waits).calls ≤ maxRetries := by
  intro fuel
  induction fuel with
  | zero => intro i waits h hi; omega
  | succ fuel ih =>
    intro i waits h hi
    rw [nbRetryFrom]
    split
    · simp
      omega
    · split
      · split
        · exact ih (i + 1) _ (by omega) (by omega)
        · simp
          omega
      · simp
        omega

lemma editRetryFrom_calls_le (attempts : Nat → AttemptRes) (maxRetries : Nat) :
    ∀ fuel i waits, maxRetries - i ≤ fuel → i < maxRetries →
      (editRetryFrom attempts maxRetries i waits).calls ≤ maxRetries := by
  intro fuel
  induction fuel with
  | zero => intro i waits h hi; omega
  | succ fuel ih =>
    intro i waits h hi
    rw [editRetryFrom]
    split
    · simp
      omega
    · split
      · simp
        omega
      · split
        · split
          · exact ih (i + 1) _ (by omega) (by omega)
          · simp
            omega
        · simp
          omega

/-- C4 counterexample: an exception whose message contains both `"422"` and
`"500"` is transient by the claim (it contains `"500"`) but `edit_clip`
returns `False` after a single attempt without retrying or waiting. -/
theorem c4_retry_claim_counterexample :
    isTransientErr "HTTP 422/500 error" = true ∧
    edit_clip_retry (fun _ => .failure "HTTP 422/500 error") =
      ⟨1, [], .rejected422⟩ := by
  constructor
  · rfl
  · rw [edit_clip_retry, editRetryFrom]
    rfl

/-- C4 (amended): both retry loops make at most 3 attempts; a transient
failure (message containing `"500"` or `"downstream_service_error"`) is
retried after waits of `10*k` seconds (10s then 20s); a non-transient
exception is re-raised without retrying — except that in `edit_clip` a
message containing `"422"` returns `False` immediately, even if it also
contains a transient marker. -/
theorem c4_retry_behavior :
    (∀ attempts, (generate_keyframe_retry attempts).calls ≤ 3) ∧
    (∀ attempts, (edit_clip_retry attempts).calls ≤ 3) ∧
    (∀ attempts msg, attempts 0 = .failure msg → isTransientErr msg = false →
      generate_keyframe_retry attempts = ⟨1, [], .raised msg⟩) ∧
    (∀ attempts msg, attempts 0 = .failure msg → isTransientErr msg = true →
      attempts 1 = .success →
      generate_keyframe_retry attempts = ⟨2, [10], .ok⟩) ∧
    (∀ attempts m0 m1 m2, attempts 0 = .failure m0 → isTransientErr m0 = true →
      attempts 1 = .failure m1 → isTransientErr m1 = true →
      attempts 2 = .failure m2 → isTransientErr m2 = true →
      generate_keyframe_retry attempts = ⟨3, [10, 20], .raised m2⟩) ∧
    (∀ attempts msg, attempts 0 = .failure msg → strHasSub "422" msg = true →
      edit_clip_retry attempts = ⟨1, [], .rejected422⟩) ∧
    (∀ attempts msg, attempts 0 = .failure msg → strHasSub "422" msg = false →
      isTransientErr msg = false →
      edit_clip_retry attempts = ⟨1, [], .raised msg⟩) ∧
    (∀ attempts m0 m1 m2, attempts 0 = .failure m0 → strHasSub "422" m0 = false →
      isTransientErr m0 = true → attempts 1 = .failure m1 →
      strHasSub "422" m1 = false → isTransientErr m1 = true →
      attempts 2 = .failure m2 → strHasSub "422" m2 = false →
      isTransientErr m2 = true →
      edit_clip_retry attempts = ⟨3, [10, 20], .raised m2⟩) := by
  refine ⟨?_, ?_, ?_, ?_, ?_, ?_, ?_, ?_⟩
  · intro attempts
    exact nbRetryFrom_calls_le attempts 3 3 0 [] (by omega) (by omega)
  · intro attempts
    exact editRetryFrom_calls_le attempts 3 3 0 [] (by omega) (by omega)
  · intro attempts msg h0 ht
    rw [generate_keyframe_retry, nbRetryFrom, h0]
    simp [ht]
  · intro attempts msg h0 ht h1
    rw [generate_keyframe_retry, nbRetryFrom, h0]
    simp only [ht]
    simp only [if_true]
    rw [if_pos (by omega : (0 : Nat) < 3 - 1), nbRetryFrom, h1]
    simp
  · intro attempts m0 m1 m2 h0 ht0 h1 ht1 h2 ht2
    rw [generate_keyframe_retry, nbRetryFrom, h0]
    simp only [ht0, if_true]
    rw [if_pos (by omega : (0 : Nat) < 3 - 1), nbRetryFrom, h1]
    simp only [ht1, if_true]
    rw [if_pos (by omega : (1 : Nat) < 3 - 1), nbRetryFrom, h2]
    simp only [ht2, if_true]
    rw [if_neg (by omega : ¬(2 : Nat) < 3 - 1)]
    simp
  · intro attempts msg h0 h4
    rw [edit_clip_retry, editRetryFrom, h0]
    simp [h4]
  · intro attempts msg h0 h4 ht
    rw [edit_clip_retry, editRetryFrom, h0]
    simp [h4, ht]
  · intro attempts m0 m1 m2 h0 h40 ht0 h1 h41 ht1 h2 h42 ht2
    rw [edit_clip_retry, editRetryFrom, h0]
    simp only [h40, ht0, if_true, Bool.false_eq_true, if_false]
    rw [if_pos (by omega : (0 : Nat) < 3 - 1), editRetryFrom, h1]
    simp only [h41, ht1, if_true, Bool.false_eq_true, if_false]
    rw [if_pos (by omega : (1 : Nat) < 3 - 1), editRetryFrom, h2]
    simp only [h42, ht2, if_true, Bool.false_eq_true, if_false]
    rw [if_neg (by omega : ¬(2 : Nat) < 3 - 1)]
    simp

/-- Witness for C4 at a concrete input: a first attempt failing with an
HTTP 500 followed by a successful attempt makes 2 calls with a single
10-second wait. -/
theorem c4_retry_behavior_witness :
    generate_keyframe_retry
        (fun n => if n = 0 then .failure "fal error 500" else .success) =
      ⟨2, [10], .ok⟩ :=
  c4_retry_behavior.2.2.2.1
    (fun n => if n = 0 then .failure "fal error 500" else .success)
    "fal error 500" rfl rfl rfl

/-! ### Lemmas about `_resolve_voices` -/

lemma dictGet_mem (d : List (String × JVal)) (k : String) (v : JVal) :
    dictGet d k = some v → (k, v) ∈ d := by
  induction d with
  | nil => intro h; simp [dictGet] at h
  | cons p rest ih =>
    intro h
    obtain ⟨k', v'⟩ := p
    rw [dictGet] at h
    by_cases hk : k' = k
    · rw [if_pos hk] at h
      injection h with h'
      subst h'
      subst hk
      exact List.mem_cons_self _ _
    · rw [if_neg hk] at h
      exact List.mem_cons_of_mem _ (ih h)

lemma buildVoices_ok_spec (characters : List (String × JVal)) :
    ∀ (seen : List String) (slot0 : Nat) (slots : List (String × Nat)) (vids : List JVal),
      buildVoices characters slot0 seen = .ok (slots, vids) →
      slots = slotTable slot0 seen ∧ vids = seen.map (voiceIdOf characters) := by
  intro seen
  induction seen with
  | nil =>
    intro slot0 slots vids h
    rw [buildVoices] at h
    injection h with h'
    injection h' with h1 h2
    subst h1
    subst h2
    exact ⟨rfl, rfl⟩
  | cons n rest ih =>
    intro slot0 slots vids h
    rw [buildVoices] at h
    split at h
    · cases h
    · rename_i d heq
      split at h
      · cases h
      · split at h
        · cases h
        · rename_i sv hrec
          injection h with h'
          injection h' with h1 h2
          subst h1
          subst h2
          obtain ⟨ih1, ih2⟩ := ih (slot0 + 1) sv.1 sv.2 hrec
          constructor
          · rw [slotTable, ← ih1]
          · rw [List.map_cons, ← ih2, voiceIdOf, heq]
    · cases h

lemma buildVoices_classify (characters : List (String × JVal))
    (hdict : ∀ p ∈ characters, ∃ d, p.2 = JVal.jdict d) :
    ∀ (seen : List String) (slot0 : Nat),
      ((∃ msg, buildVoices characters slot0 seen = .error (.valueError msg)) ↔
        ∃ n ∈ seen, dictGet characters n = none ∨ charLacksVoice characters n) ∧
      (∀ e, buildVoices characters slot0 seen = .error e →
        ∃ msg, e = .valueError msg) := by
  intro seen
  induction seen with
  | nil =>
    intro slot0
    constructor
    · constructor
      · rintro ⟨msg, h⟩
        rw [buildVoices] at h
        simp at h
      · rintro ⟨n, hn, _⟩
        simp at hn
    · intro e h
      rw [buildVoices] at h
      simp at h
  | cons n rest ih =>
    intro slot0
    cases hc : dictGet characters n with
    | none =>
      have hbv : buildVoices characters slot0 (n :: rest) =
          .error (.valueError ("<<<" ++ n ++ ">>> in beat prompt but not in characters")) := by
        rw [buildVoices, hc]
      constructor
      · constructor
        · intro _
          exact ⟨n, List.mem_cons_self _ _, Or.inl hc⟩
        · intro _
          exact ⟨_, hbv⟩
      · intro e h
        rw [hbv] at h
        injection h with h'
        exact ⟨_, h'.symm⟩
    | some cdef =>
      obtain ⟨d, hd⟩ := hdict (n, cdef) (dictGet_mem characters n cdef hc)
      simp only at hd
      subst hd
      by_cases hf : pyFalsy ((dictGet d "kling_voice_id").getD .jnull) = true
      · have hbv : buildVoices characters slot0 (n :: rest) =
            .error (.valueError ("Character " ++ n ++ " has no kling_voice_id")) := by
          rw [buildVoices, hc]
          simp [hf]
        constructor
        · constructor
          · intro _
            exact ⟨n, List.mem_cons_self _ _, Or.inr ⟨d, hc, hf⟩⟩
          · intro _
            exact ⟨_, hbv⟩
        · intro e h
          rw [hbv] at h
          injection h with h'
          exact ⟨_, h'.symm⟩
      · have hnotbad : ¬(dictGet characters n = none ∨ charLacksVoice characters n) := by
          rintro (hno | ⟨d', hd', hf'⟩)
          · rw [hc] at hno
            cases hno
          · rw [hc] at hd'
            injection hd' with hd''
            injection hd'' with hd3
            subst hd3
            exact hf hf'
        cases hrec : buildVoices characters (slot0 + 1) rest with
        | error e =>
          obtain ⟨msg, hmsg⟩ := (ih (slot0 + 1)).2 e hrec
          subst hmsg
          have hbv : buildVoices characters slot0 (n :: rest) = .error (.valueError msg) := by
            rw [buildVoices, hc]
            simp [hf, hrec]
          constructor
          · constructor
            · intro _
              obtain ⟨n', hn', hbad⟩ := (ih (slot0 + 1)).1.1 ⟨msg, hrec⟩
              exact ⟨n', List.mem_cons_of_mem _ hn', hbad⟩
            · intro _
              exact ⟨_, hbv⟩
          · intro e h
            rw [hbv] at h
            injection h with h'
            exact ⟨_, h'.symm⟩
        | ok sv =>
          have hbv : buildVoices characters slot0 (n :: rest) =
              .ok ((n, slot0) :: sv.1, ((dictGet d "kling_voice_id").getD .jnull) :: sv.2) := by
            rw [buildVoices, hc]
            simp [hf, hrec]
          constructor
          · constructor
            · rintro ⟨msg, h⟩
              rw [hbv] at h
              cases h
            · rintro ⟨n', hn', hbad⟩
              rcases List.mem_cons.1 hn' with hn'' | hn''
              · subst hn''
                exact absurd hbad hnotbad
              · obtain ⟨msg, hmsg⟩ := (ih (slot0 + 1)).1.2 ⟨n', hn'', hbad⟩
                rw [hrec] at hmsg
                cases hmsg
          · intro e h
            rw [hbv] at h
            cases h

/-- C8: `_resolve_voices` raises a `ValueError` exactly when some character
tag in a beat prompt (a `<<<name>>>` tag not starting with `voice_`) names a
character missing from `characters`, or one without a usable
`kling_voice_id`, or when more than 2 distinct characters are tagged;
otherwise it returns the voice ids in order of the tags' first appearance,
with the `k`-th first-seen name rewritten to `<<<voice_(k+1)>>>` in every
(element-reference-stripped) prompt. -/
theorem c8_resolve_voices
    (beats : List Beat) (characters : List (String × JVal))
    (hdict : ∀ p ∈ characters, ∃ d, p.2 = JVal.jdict d) :
    ((∃ msg, resolve_voices beats characters = .error (.valueError msg)) ↔
      ((∃ n ∈ collectSeen beats,
          dictGet characters n = none ∨ charLacksVoice characters n) ∨
        2 < (collectSeen beats).length)) ∧
    (∀ bs vids, resolve_voices beats characters = .ok (bs, vids) →
      vids = (collectSeen beats).map (voiceIdOf characters) ∧
      (collectSeen beats = [] → bs = beats) ∧
      (collectSeen beats ≠ [] →
        bs = beats.map (fun b =>
          { b with prompt := (applySlots (slotAssignment (collectSeen beats))
              (String.mk (stripElemRefs b.prompt.toList))) }))) := by
  by_cases hempty : (collectSeen beats).isEmpty = true
  · have hseen : collectSeen beats = [] := by
      cases hsl : collectSeen beats with
      | nil => rfl
      | cons a l => rw [hsl] at hempty; simp at hempty
    have hrv : resolve_voices beats characters = .ok (beats, []) := by
      rw [resolve_voices, if_pos hempty]
    constructor
    · constructor
      · rintro ⟨msg, h⟩
        rw [hrv] at h
        cases h
      · rintro (⟨n, hn, _⟩ | hlen)
        · rw [hseen] at hn
          simp at hn
        · rw [hseen] at hlen
          simp at hlen
    · intro bs vids h
      rw [hrv] at h
      injection h with h'
      injection h' with h1 h2
      subst h1
      subst h2
      exact ⟨by rw [hseen]; rfl, fun _ => rfl, fun hne => absurd hseen hne⟩
  · cases hbv : buildVoices characters 1 (collectSeen beats) with
    | error e =>
      obtain ⟨msg, hmsg⟩ := (buildVoices_classify characters hdict (collectSeen beats) 1).2 e hbv
      subst hmsg
      have hrv : resolve_voices beats characters = .error (.valueError msg) := by
        rw [resolve_voices, if_neg hempty, hbv]
      constructor
      · constructor
        · intro _
          exact Or.inl ((buildVoices_classify characters hdict (collectSeen beats) 1).1.1
            ⟨msg, hbv⟩)
        · intro _
          exact ⟨msg, hrv⟩
      · intro bs vids h
        rw [hrv] at h
        cases h
    | ok sv =>
      obtain ⟨hslots, hvids⟩ := buildVoices_ok_spec characters (collectSeen beats) 1 sv.1 sv.2
        (by rw [hbv])
      have hlen : sv.2.length = (collectSeen beats).length := by
        rw [hvids, List.length_map]
      have hnobad : ¬∃ n ∈ collectSeen beats,
          dictGet characters n = none ∨ charLacksVoice characters n := by
        intro hbad
        obtain ⟨msg, hmsg⟩ :=
          (buildVoices_classify characters hdict (collectSeen beats) 1).1.2 hbad
        rw [hbv] at hmsg
        cases hmsg
      by_cases hgt : sv.2.length > 2
      · have hrv : resolve_voices beats characters =
            .error (.valueError "Kling supports max 2 voices per clip") := by
          rw [resolve_voices, if_neg hempty, hbv]
          simp [hgt]
        constructor
        · constructor
          · intro _
            exact Or.inr (by rw [← hlen]; exact hgt)
          · intro _
            exact ⟨_, hrv⟩
        · intro bs vids h
          rw [hrv] at h
          cases h
      · have hrv : resolve_voices beats characters =
            .ok ((beats.map (fun b =>
                { b with prompt := String.mk (stripElemRefs b.prompt.toList) })).map
                  (fun b => { b with prompt := applySlots sv.1 b.prompt }),
              sv.2) := by
          rw [resolve_voices, if_neg hempty, hbv]
          simp [hgt]
        constructor
        · constructor
          · rintro ⟨msg, h⟩
            rw [hrv] at h
            cases h
          · rintro (hbad | hlen2)
            · exact absurd hbad hnobad
            · rw [← hlen] at hlen2
              exact absurd hlen2 hgt
        · intro bs vids h
          rw [hrv] at h
          injection h with h'
          injection h' with h1 h2
          subst h1
          subst h2
          refine ⟨hvids, ?_, ?_⟩
          · intro hseen
            rw [hseen] at hempty
            simp at hempty
          · intro _
            rw [List.map_map, slotAssignment, ← hslots]
            rfl

/-- Witness for C8: a single beat tagging one character with a configured
voice id resolves to that voice id and the prompt is rewritten to
`<<<voice_1>>>`. -/
theorem c8_resolve_voices_witness :
    [JVal.jstr "v1"] =
      (collectSeen [⟨"<<<alice>>> says hi", "5"⟩]).map
        (voiceIdOf [("alice", .jdict [("kling_voice_id", .jstr "v1")])]) ∧
    (collectSeen [⟨"<<<alice>>> says hi", "5"⟩] = [] →
      [Beat.mk "<<<voice_1>>> says hi" "5"] = [⟨"<<<alice>>> says hi", "5"⟩]) ∧
    (collectSeen [⟨"<<<alice>>> says hi", "5"⟩] ≠ [] →
      [Beat.mk "<<<voice_1>>> says hi" "5"] =
        [Beat.mk "<<<alice>>> says hi" "5"].map (fun b =>
          { b with prompt := (applySlots
              (slotAssignment (collectSeen [⟨"<<<alice>>> says hi", "5"⟩]))
              (String.mk (stripElemRefs b.prompt.toList))) })) :=
  (c8_resolve_voices [⟨"<<<alice>>> says hi", "5"⟩]
    [("alice", .jdict [("kling_voice_id", .jstr "v1")])]
    (by
      intro p hp
      rcases List.mem_singleton.1 hp with rfl
      exact ⟨_, rfl⟩)).2
    [Beat.mk "<<<voice_1>>> says hi" "5"] [JVal.jstr "v1"] (by rfl)

/-- C5: when a vendor response contains no result URL, the function reports
failure — the success flag is `False` and the file at `output_path` is not
written; when a result URL is present, the file is saved and `True` is
returned (`generate_keyframe_nano_banana` saves `output_path` itself in the
`num_images == 1` case; with more images it saves variant files). -/
theorem c5_result_url_handling :
    (∀ (beats : List Beat) (characters : List (String × JVal))
        (result : List (String × JVal)) (outputPath : String) r u,
      resolve_voices beats characters = .ok r →
      durationsParse beats = true →
      extract_video_url result = .ok u →
      ((pyFalsy u = true →
          generate_video beats characters result outputPath = .ok (false, [])) ∧
        (pyFalsy u = false →
          generate_video beats characters result outputPath =
            .ok (true, [outputPath])))) ∧
    (∀ (result : List (String × JVal)) (outputPath : String) (numImages : Nat),
      pyFalsy ((dictGet result "images").getD (.jlist [])) = true →
      generate_keyframe_result result outputPath numImages = .ok (false, [])) ∧
    (∀ (result : List (String × JVal)) (outputPath : String) (numImages : Nat)
        (d : List (String × JVal)) (restImgs : List JVal),
      (dictGet result "images").getD (.jlist []) = .jlist (.jdict d :: restImgs) →
      ((pyFalsy ((dictGet d "url").getD .jnull) = true →
          generate_keyframe_result result outputPath numImages = .ok (false, [])) ∧
        (pyFalsy ((dictGet d "url").getD .jnull) = false → numImages = 1 →
          generate_keyframe_result result outputPath numImages =
            .ok (true, [outputPath])))) ∧
    (∀ (result : List (String × JVal)) (outputPath : String) (numImages : Nat)
        (b : Bool) (ws : List String),
      generate_keyframe_result result outputPath numImages = .ok (b, ws) →
      b = false → ws = []) := by
  refine ⟨?_, ?_, ?_, ?_⟩
  · intro beats characters result outputPath r u hrv hdp hext
    constructor
    · intro hfal
      simp [generate_video, hrv, hdp, hext, hfal]
    · intro hfal
      simp [generate_video, hrv, hdp, hext, hfal]
  · intro result outputPath numImages hfal
    simp [generate_keyframe_result, hfal]
  · intro result outputPath numImages d restImgs himg
    constructor
    · intro hfal
      simp [generate_keyframe_result, himg, hfal]
    · intro hfal h1
      simp [generate_keyframe_result, himg, hfal, h1]
      rfl
  · intro result outputPath numImages b ws h hb
    subst hb
    rw [generate_keyframe_result] at h
    split at h
    · injection h with h'
      injection h' with _ h2
      exact h2.symm
    · split at h
      · split at h
        · split at h
          · injection h with h'
            injection h' with _ h2
            exact h2.symm
          · split at h
            · injection h with h'
              injection h' with h1 _
              cases h1
            · injection h with h'
              injection h' with h1 _
              cases h1
        · cases h
      · cases h

/-- Witness for C5: a response carrying a video URL yields success with the
output path written. -/
theorem c5_result_url_handling_witness :
    generate_video [] [] [("video", .jdict [("url", .jstr "https fal result")])]
        "clips/clip_000.mp4" =
      .ok (true, ["clips/clip_000.mp4"]) :=
  ((c5_result_url_handling.1 [] []
      [("video", .jdict [("url", .jstr "https fal result")])]
      "clips/clip_000.mp4" ([], []) (.jstr "https fal result")
      (by rfl) (by rfl) (by rfl)).2) (by rfl)

/-! ### Output-path lemmas -/

lemma getLastQ_append_ne {α : Type} (l1 l2 : List α) (h : l2 ≠ []) :
    (l1 ++ l2).getLast? = l2.getLast? := by
  induction l1 with
  | nil => simp
  | cons a l ih =>
    cases hl : l ++ l2 with
    | nil =>
      rcases List.append_eq_nil.1 hl with ⟨-, h2⟩
      exact absurd h2 h
    | cons x xs =>
      rw [List.cons_append, hl, List.getLast?_cons_cons, ← hl, ih]

lemma strData_append_ne (a b : String) (ha : a.data ≠ []) : (a ++ b).data ≠ [] := by
  rw [String.data_append]
  intro h
  exact ha (List.append_eq_nil.1 h).1

lemma strStartsSlash_append (a b : String) (ha : a.data ≠ []) :
    strStartsSlash (a ++ b) = strStartsSlash a := by
  cases h : a.data with
  | nil => exact absurd h ha
  | cons c cs => simp [strStartsSlash, String.data_append, h]

lemma strEndsSlash_append (a b : String) (hb : b.data ≠ []) :
    strEndsSlash (a ++ b) = strEndsSlash b := by
  unfold strEndsSlash
  rw [String.data_append, getLastQ_append_ne _ _ hb]

lemma pyJoin_eq (a b : String) (hb : strStartsSlash b = false)
    (ha0 : a.data ≠ []) (ha : strEndsSlash a = false) :
    pyJoin a b = a ++ "/" ++ b := by
  rw [pyJoin, if_neg (by rw [hb]; exact Bool.false_ne_true)]
  rw [if_neg]
  rw [Bool.or_eq_true, not_or]
  exact ⟨by simpa [List.isEmpty_iff] using ha0, by rw [ha]; exact Bool.false_ne_true⟩

/-- C6 counterexample: for a storyboard named "demo" stitched with engine key
"kling", `_stitch_clips` writes the final video as `demo_kling.mp4` inside the
output directory, not `demo.mp4` as the spec states. -/
theorem c6_final_name_counterexample :
    final_video_pathOf "demo" "kling" =
      "assets/generated/videos/demo/demo_kling.mp4" ∧
    final_video_pathOf "demo" "kling" ≠
      "assets/generated/videos/demo/demo.mp4" := by
  constructor
  · decide
  · decide

/-- C6 (amended): for a storyboard named `name` (a relative, non-empty name
with no trailing slash) intermediate artifacts live under
`assets/generated/videos/name/` — keyframes as `keyframes/keyframe_iii.png`
and clips as `clips/engineKey/clip_iii.mp4` — and the final stitched video is
`name_engineKey.mp4` in that directory (not `name.mp4`). -/
theorem c6_output_paths (name engineKey : String) (i : Nat)
    (hn0 : name.data ≠ []) (hn1 : strStartsSlash name = false)
    (hn2 : strEndsSlash name = false)
    (he0 : engineKey.data ≠ []) (he1 : strStartsSlash engineKey = false)
    (he2 : strEndsSlash engineKey = false) :
    output_base name = videos_dir ++ "/" ++ name ∧
    keyframes_dirOf name = output_base name ++ "/" ++ "keyframes" ∧
    clips_dirOf name engineKey =
      output_base name ++ "/" ++ "clips" ++ "/" ++ engineKey ∧
    keyframe_pathOf name i =
      keyframes_dirOf name ++ "/" ++ ("keyframe_" ++ pad3 i ++ ".png") ∧
    clip_pathOf name engineKey i =
      clips_dirOf name engineKey ++ "/" ++ ("clip_" ++ pad3 i ++ ".mp4") ∧
    final_video_pathOf name engineKey =
      output_base name ++ "/" ++ (name ++ "_" ++ engineKey ++ ".mp4") := by
  have hob : output_base name = videos_dir ++ "/" ++ name := by
    rw [output_base]
    exact pyJoin_eq _ _ hn1 (by decide) (by decide)
  have hob0 : (output_base name).data ≠ [] := by
    rw [hob]; exact strData_append_ne _ _ (by decide)
  have hobE : strEndsSlash (output_base name) = false := by
    rw [hob, strEndsSlash_append _ _ hn0]; exact hn2
  have hkf : keyframes_dirOf name = output_base name ++ "/" ++ "keyframes" := by
    rw [keyframes_dirOf]
    exact pyJoin_eq _ _ (by decide) hob0 hobE
  have hkf0 : (keyframes_dirOf name).data ≠ [] := by
    rw [hkf]; exact strData_append_ne _ _ (strData_append_ne _ _ hob0)
  have hkfE : strEndsSlash (keyframes_dirOf name) = false := by
    rw [hkf, strEndsSlash_append _ _ (by decide)]
    decide
  have hcin : pyJoin (output_base name) "clips" =
      output_base name ++ "/" ++ "clips" :=
    pyJoin_eq _ _ (by decide) hob0 hobE
  have hcl : clips_dirOf name engineKey =
      output_base name ++ "/" ++ "clips" ++ "/" ++ engineKey := by
    rw [clips_dirOf, hcin]
    exact pyJoin_eq _ _ he1
      (strData_append_ne _ _ (strData_append_ne _ _ hob0))
      (by rw [strEndsSlash_append _ _ (by decide)]; decide)
  have hcl0 : (clips_dirOf name engineKey).data ≠ [] := by
    rw [hcl]
    exact strData_append_ne _ _
      (strData_append_ne _ _ (strData_append_ne _ _ (strData_append_ne _ _ hob0)))
  have hclE : strEndsSlash (clips_dirOf name engineKey) = false := by
    rw [hcl, strEndsSlash_append _ _ he0]; exact he2
  have hbk : strStartsSlash ("keyframe_" ++ pad3 i ++ ".png") = false := by
    rw [strStartsSlash_append _ _ (strData_append_ne _ _ (by decide)),
      strStartsSlash_append _ _ (by decide)]
    decide
  have hbc : strStartsSlash ("clip_" ++ pad3 i ++ ".mp4") = false := by
    rw [strStartsSlash_append _ _ (strData_append_ne _ _ (by decide)),
      strStartsSlash_append _ _ (by decide)]
    decide
  have hbf : strStartsSlash (name ++ "_" ++ engineKey ++ ".mp4") = false := by
    rw [strStartsSlash_append _ _ (strData_append_ne _ _ (strData_append_ne _ _ hn0)),
      strStartsSlash_append _ _ (strData_append_ne _ _ hn0),
      strStartsSlash_append _ _ hn0]
    exact hn1
  refine ⟨hob, hkf, hcl, ?_, ?_, ?_⟩
  · rw [keyframe_pathOf]
    exact pyJoin_eq _ _ hbk hkf0 hkfE
  · rw [clip_pathOf]
    exact pyJoin_eq _ _ hbc hcl0 hclE
  · rw [final_video_pathOf]
    exact pyJoin_eq _ _ hbf hob0 hobE

/-- Witness for C6 at name "demo", engine key "kling", shot 0. -/
theorem c6_output_paths_witness :
    final_video_pathOf "demo" "kling" =
      output_base "demo" ++ "/" ++ ("demo" ++ "_" ++ "kling" ++ ".mp4") :=
  (c6_output_paths "demo" "kling" 0 (by decide) (by decide) (by decide)
      (by decide) (by decide) (by decide)).2.2.2.2.2

/-! ### Scene-pipeline lemmas -/

lemma fsLookup_erase_ne (fs : FS) (p q : PathKey) (h : q ≠ p) :
    fsLookup (fsErase fs p) q = fsLookup fs q := by
  induction fs with
  | nil => rfl
  | cons e rest ih =>
    obtain ⟨a, s⟩ := e
    by_cases hap : a = p
    · have haq : ¬ (a = q) := fun hh => h (hh.symm.trans hap)
      simp only [fsErase, fsLookup, if_pos hap, if_neg haq]
      exact ih
    · simp only [fsErase, fsLookup, if_neg hap]
      by_cases haq : a = q
      · simp only [fsLookup, if_pos haq]
      · simp only [fsLookup, if_neg haq]
        exact ih

lemma fsLookup_write_self (fs : FS) (p : PathKey) (sz : Nat) :
    fsLookup (fsWrite fs p sz) p = some sz := by
  simp [fsWrite, fsLookup]

lemma fsLookup_write_ne (fs : FS) (p q : PathKey) (sz : Nat) (h : q ≠ p) :
    fsLookup (fsWrite fs p sz) q = fsLookup fs q := by
  have hpq : ¬ (p = q) := fun hh => h hh.symm
  simp only [fsWrite, fsLookup, if_neg hpq]
  exact fsLookup_erase_ne fs p q h

lemma kfGo_events (korc : Nat → Option Nat) (shots : List Shot) :
    ∀ i fs e, e ∈ (kfGo korc shots i fs).tr → ∃ j, e = Event.keyframeGen j := by
  induction shots with
  | nil => intro i fs e he; simp [kfGo] at he
  | cons s rest ih =>
    intro i fs e he
    simp only [kfGo] at he
    split at he
    · exact ih _ _ _ he
    · split at he
      · simp at he
      · split at he
        · simp at he
        · simp [consEv] at he
          rcases he with rfl | h2
          · exact ⟨i, rfl⟩
          · exact ih _ _ _ h2

lemma clipGo_events (corc : Nat → Option Nat) (shots : List Shot) :
    ∀ i fs e, e ∈ (clipGo corc shots i fs).tr → ∃ j, e = Event.clipGen j := by
  induction shots with
  | nil => intro i fs e he; simp [clipGo] at he
  | cons s rest ih =>
    intro i fs e he
    simp only [clipGo] at he
    split at he
    · exact ih _ _ _ he
    · split at he
      · exact ih _ _ _ he
      · split at he
        · simp at he
        · simp [consEv] at he
          rcases he with rfl | h2
          · exact ⟨i, rfl⟩
          · exact ih _ _ _ h2

lemma regenKf_tr (korc : Nat → Option Nat) (idx : Nat) (fs : FS) :
    ∀ e ∈ (regenKf korc idx fs).tr, e = Event.keyframeGen idx := by
  intro e he
  cases hk : korc idx <;> simp [regenKf, hk] at he
  exact he

lemma reviewGo_events (korc : Nat → Option Nat) (reviews : List RAction) :
    ∀ fs e, e ∈ (reviewGo korc reviews fs).tr → ∃ j, e = Event.keyframeGen j := by
  induction reviews with
  | nil => intro fs e he; simp [reviewGo] at he
  | cons a rest ih =>
    intro fs e he
    cases a with
    | acceptAll => simp [reviewGo] at he
    | abortRun => simp [reviewGo] at he
    | regen idx =>
      simp only [reviewGo, seqSt] at he
      split at he
      · replace he : e ∈ (regenKf korc idx fs).tr ++
            (reviewGo korc rest (regenKf korc idx fs).fs).tr := he
        rcases List.mem_append.1 he with h1 | h2
        · exact ⟨idx, regenKf_tr korc idx fs e h1⟩
        · exact ih _ _ h2
      · exact ⟨idx, regenKf_tr korc idx fs e he⟩

lemma kfGo_preserve (korc : Nat → Option Nat) (shots : List Shot) :
    ∀ i fs p, fsExists fs p = true →
      fsLookup (kfGo korc shots i fs).fs p = fsLookup fs p := by
  induction shots with
  | nil => intro i fs p _; rfl
  | cons s rest ih =>
    intro i fs p hp
    simp only [kfGo]
    split
    · exact ih _ _ _ hp
    · rename_i hkf
      split
      · rfl
      · split
        · rfl
        · rename_i sz hsz
          show fsLookup (kfGo korc rest (i + 1) (fsWrite fs (.keyframe i) sz)).fs p =
            fsLookup fs p
          have hpi : p ≠ PathKey.keyframe i := fun hh => hkf (hh ▸ hp)
          have hw := fsLookup_write_ne fs (.keyframe i) p sz hpi
          have hp2 : fsExists (fsWrite fs (.keyframe i) sz) p = true := by
            rw [fsExists, hw]; exact hp
          rw [ih _ _ _ hp2, hw]

lemma kfGo_preserve_nonkf (korc : Nat → Option Nat) (shots : List Shot) :
    ∀ i fs p, (∀ j, p ≠ PathKey.keyframe j) →
      fsLookup (kfGo korc shots i fs).fs p = fsLookup fs p := by
  induction shots with
  | nil => intro i fs p _; rfl
  | cons s rest ih =>
    intro i fs p hp
    simp only [kfGo]
    split
    · exact ih _ _ _ hp
    · split
      · rfl
      · split
        · rfl
        · rename_i sz hsz
          show fsLookup (kfGo korc rest (i + 1) (fsWrite fs (.keyframe i) sz)).fs p =
            fsLookup fs p
          rw [ih _ _ _ hp, fsLookup_write_ne fs _ p sz (hp i)]

lemma kfGo_no_regen (korc : Nat → Option Nat) (shots : List Shot) :
    ∀ i fs j, fsExists fs (PathKey.keyframe j) = true →
      Event.keyframeGen j ∉ (kfGo korc shots i fs).tr := by
  induction shots with
  | nil => intro i fs j _; simp [kfGo]
  | cons s rest ih =>
    intro i fs j hj
    simp only [kfGo]
    split
    · exact ih _ _ _ hj
    · rename_i hkf
      split
      · simp
      · split
        · simp
        · rename_i sz hsz
          have hji : j ≠ i := fun hh => hkf (hh ▸ hj)
          have hw := fsLookup_write_ne fs (.keyframe i) (.keyframe j) sz (by simp [hji])
          have hj2 : fsExists (fsWrite fs (.keyframe i) sz) (PathKey.keyframe j) = true := by
            rw [fsExists, hw]; exact hj
          intro hmem
          replace hmem : Event.keyframeGen j = Event.keyframeGen i ∨
              Event.keyframeGen j ∈
                (kfGo korc rest (i + 1) (fsWrite fs (.keyframe i) sz)).tr :=
            List.mem_cons.1 hmem
          rcases hmem with h1 | h2
          · exact hji (Event.keyframeGen.inj h1)
          · exact ih _ _ _ hj2 h2

lemma clipGo_preserve_nonclip (corc : Nat → Option Nat) (shots : List Shot) :
    ∀ i fs p, (∀ j, p ≠ PathKey.clip j) →
      fsLookup (clipGo corc shots i fs).fs p = fsLookup fs p := by
  induction shots with
  | nil => intro i fs p _; rfl
  | cons s rest ih =>
    intro i fs p hp
    simp only [clipGo]
    split
    · exact ih _ _ _ hp
    · split
      · exact ih _ _ _ hp
      · split
        · rfl
        · rename_i sz hsz
          show fsLookup (clipGo corc rest (i + 1) (fsWrite fs (.clip i) sz)).fs p =
            fsLookup fs p
          rw [ih _ _ _ hp, fsLookup_write_ne fs _ p sz (hp i)]

lemma clipGo_preserve_pos (corc : Nat → Option Nat) (shots : List Shot) :
    ∀ i fs j, fsExists fs (PathKey.clip j) = true → 0 < fsSize fs (PathKey.clip j) →
      fsLookup (clipGo corc shots i fs).fs (PathKey.clip j) =
        fsLookup fs (PathKey.clip j) ∧
      Event.clipGen j ∉ (clipGo corc shots i fs).tr := by
  induction shots with
  | nil => intro i fs j _ _; exact ⟨rfl, by simp [clipGo]⟩
  | cons s rest ih =>
    intro i fs j h1 h2
    simp only [clipGo]
    split
    · exact ih _ _ _ h1 h2
    · split
      · exact ih _ _ _ h1 h2
      · rename_i hcond
        split
        · exact ⟨rfl, by simp⟩
        · rename_i sz hsz
          have hji : j ≠ i := by
            intro hh
            subst hh
            exact hcond (by simp [h1, h2])
          have hw := fsLookup_write_ne fs (.clip i) (.clip j) sz (by simp [hji])
          have h1b : fsExists (fsWrite fs (.clip i) sz) (PathKey.clip j) = true := by
            rw [fsExists, hw]; exact h1
          have h2b : 0 < fsSize (fsWrite fs (.clip i) sz) (PathKey.clip j) := by
            rw [fsSize, hw]; exact h2
          obtain ⟨ha, hb⟩ := ih (i + 1) (fsWrite fs (.clip i) sz) j h1b h2b
          constructor
          · show fsLookup (clipGo corc rest (i + 1) (fsWrite fs (.clip i) sz)).fs
                (PathKey.clip j) = fsLookup fs (PathKey.clip j)
            rw [ha, hw]
          · show Event.clipGen j ∉ Event.clipGen i ::
                (clipGo corc rest (i + 1) (fsWrite fs (.clip i) sz)).tr
            intro hmem
            rcases List.mem_cons.1 hmem with hx | hx
            · exact hji (Event.clipGen.inj hx)
            · exact hb hx

lemma seqSt_ok_decomp (r : StRes) (f : FS → StRes) (h : (seqSt r f).ok = true) :
    r.ok = true ∧ (f r.fs).ok = true ∧
      seqSt r f = StRes.mk (f r.fs).fs (r.tr ++ (f r.fs).tr) (f r.fs).ok := by
  by_cases hr : r.ok = true
  · rw [seqSt, if_pos hr] at h
    exact ⟨hr, h, by rw [seqSt, if_pos hr]⟩
  · rw [seqSt, if_neg hr] at h
    exact absurd h hr

lemma sceneRun_fs_preserve (korc corc : Nat → Option Nat) (ssz : Nat)
    (shots : List Shot) (fs0 : FS) (pk : PathKey)
    (hk : fsLookup (kfGo korc shots 0 fs0).fs pk = fsLookup fs0 pk)
    (hc : fsLookup (clipGo corc shots 0 (kfGo korc shots 0 fs0).fs).fs pk =
      fsLookup (kfGo korc shots 0 fs0).fs pk)
    (hnf : pk ≠ PathKey.finalVideo) :
    fsLookup (sceneRun korc corc ssz shots [RAction.acceptAll] fs0).fs pk =
      fsLookup fs0 pk := by
  cases hK : (kfGo korc shots 0 fs0).ok
  · simp only [sceneRun, seqSt, hK, Bool.false_eq_true, if_false]
    exact hk
  · cases hC : (clipGo corc shots 0 (kfGo korc shots 0 fs0).fs).ok
    · simp only [sceneRun, seqSt, reviewGo, hK, hC, Bool.false_eq_true, if_false,
        if_true]
      rw [hc]
      exact hk
    · simp only [sceneRun, seqSt, reviewGo, hK, hC, if_true]
      rw [fsLookup_write_ne _ _ _ _ hnf, hc]
      exact hk

lemma sceneRun_tr_decomp (korc corc : Nat → Option Nat) (ssz : Nat)
    (shots : List Shot) (fs0 : FS) (e : Event)
    (he : e ∈ (sceneRun korc corc ssz shots [RAction.acceptAll] fs0).tr) :
    e ∈ (kfGo korc shots 0 fs0).tr ∨
    e ∈ (clipGo corc shots 0 (kfGo korc shots 0 fs0).fs).tr ∨
    e = Event.stitchRun := by
  cases hK : (kfGo korc shots 0 fs0).ok
  · simp only [sceneRun, seqSt, hK, Bool.false_eq_true, if_false] at he
    exact Or.inl he
  · cases hC : (clipGo corc shots 0 (kfGo korc shots 0 fs0).fs).ok
    · simp only [sceneRun, seqSt, reviewGo, hK, hC, Bool.false_eq_true, if_false,
        if_true] at he
      rcases List.mem_append.1 he with h | h
      · exact Or.inl h
      · rcases List.mem_append.1 h with h2 | h2
        · simp at h2
        · exact Or.inr (Or.inl h2)
    · simp only [sceneRun, seqSt, reviewGo, hK, hC, if_true] at he
      rcases List.mem_append.1 he with h | h
      · exact Or.inl h
      · rcases List.mem_append.1 h with h2 | h2
        · simp at h2
        · rcases List.mem_append.1 h2 with h3 | h3
          · exact Or.inr (Or.inl h3)
          · simp at h3
            exact Or.inr (Or.inr h3)

/-! ### CLI dispatch -/

/-- C7 code bug: with no subcommand `main()` runs the interactive menu, but
the `storyboard` subcommand dispatches to `storyboard_to_video` with five
keyword arguments while `def storyboard_to_video():` declares no parameters,
so the call raises `TypeError` instead of running the pipeline (the `generate`
subcommand, by contrast, binds cleanly). -/
theorem c7_storyboard_dispatch_bug :
    chairDispatch none none = ChairAction.runMenu ∧
    chairDispatch (some "storyboard") none =
      ChairAction.callFn "storyboard_to_video" storyboardDispatchKwargs ∧
    pyCallBindOk storyboard_to_video_params storyboardDispatchKwargs = false ∧
    pyCallBindOk generate_images_params
      ["theme_name", "auto_mode", "count_override"] = true := by
  refine ⟨rfl, by decide, by decide, by decide⟩

/-! ### Scene-pipeline stage order and resumability -/

/-- C1 counterexample: a complete scene-mode run (single shot, everything
succeeds, keyframes accepted) reaches stitching with trace
keyframe → clip → stitch and contains no layout-generation event:
`storyboard_to_video` has no layout stage (`generate_layout` is never
called). -/
theorem c1_no_layout_counterexample :
    (sceneRun (fun _ => some 5) (fun _ => some 7) 9 [Shot.mk "p" "m"]
        [RAction.acceptAll] []).tr =
      [Event.keyframeGen 0, Event.clipGen 0, Event.stitchRun] ∧
    (sceneRun (fun _ => some 5) (fun _ => some 7) 9 [Shot.mk "p" "m"]
        [RAction.acceptAll] []).ok = true ∧
    Event.layoutGen ∉ (sceneRun (fun _ => some 5) (fun _ => some 7) 9
        [Shot.mk "p" "m"] [RAction.acceptAll] []).tr := by
  refine ⟨by decide, by decide, by decide⟩

/-- C1 (amended): every scene-mode run that reaches stitching executes
keyframe generation (including review re-generations), then video-clip
generation, then the single ffmpeg stitch — the trace splits into a
keyframe-event part followed by a clip-event part followed by `stitchRun` —
and there is no layout-generation stage. -/
theorem c1_stage_order (korc corc : Nat → Option Nat) (ssz : Nat)
    (shots : List Shot) (reviews : List RAction) (fs0 : FS)
    (hok : (sceneRun korc corc ssz shots reviews fs0).ok = true) :
    ∃ kts cts,
      (sceneRun korc corc ssz shots reviews fs0).tr =
        kts ++ cts ++ [Event.stitchRun] ∧
      (∀ e ∈ kts, ∃ i, e = Event.keyframeGen i) ∧
      (∀ e ∈ cts, ∃ i, e = Event.clipGen i) ∧
      Event.layoutGen ∉ (sceneRun korc corc ssz shots reviews fs0).tr := by
  rw [sceneRun] at hok ⊢
  obtain ⟨hK, hF, hEq⟩ := seqSt_ok_decomp _ _ hok
  obtain ⟨hR, hG, hEq2⟩ := seqSt_ok_decomp _ _ hF
  obtain ⟨hC, hH, hEq3⟩ := seqSt_ok_decomp _ _ hG
  refine ⟨(kfGo korc shots 0 fs0).tr ++
      (reviewGo korc reviews (kfGo korc shots 0 fs0).fs).tr,
    (clipGo corc shots 0
      (reviewGo korc reviews (kfGo korc shots 0 fs0).fs).fs).tr, ?_, ?_, ?_, ?_⟩
  · simp only [hEq, hEq2, hEq3, List.append_assoc]
  · intro e he
    rcases List.mem_append.1 he with h | h
    · exact kfGo_events korc shots 0 fs0 e h
    · exact reviewGo_events korc reviews _ e h
  · intro e he
    exact clipGo_events corc shots 0 _ e he
  · intro hmem
    simp only [hEq, hEq2, hEq3] at hmem
    rcases List.mem_append.1 hmem with h | h
    · obtain ⟨j, hj⟩ := kfGo_events korc shots 0 fs0 _ h
      exact Event.noConfusion hj
    · rcases List.mem_append.1 h with h2 | h2
      · obtain ⟨j, hj⟩ := reviewGo_events korc reviews _ _ h2
        exact Event.noConfusion hj
      · rcases List.mem_append.1 h2 with h3 | h3
        · obtain ⟨j, hj⟩ := clipGo_events corc shots 0 _ _ h3
          exact Event.noConfusion hj
        · simp at h3

/-- Witness for C1: concrete finished run, its trace splitting as stated. -/
theorem c1_stage_order_witness :
    ∃ kts cts,
      (sceneRun (fun _ => some 5) (fun _ => some 7) 9 [Shot.mk "p" "m"]
          [RAction.acceptAll] []).tr = kts ++ cts ++ [Event.stitchRun] ∧
      (∀ e ∈ kts, ∃ i, e = Event.keyframeGen i) ∧
      (∀ e ∈ cts, ∃ i, e = Event.clipGen i) ∧
      Event.layoutGen ∉ (sceneRun (fun _ => some 5) (fun _ => some 7) 9
          [Shot.mk "p" "m"] [RAction.acceptAll] []).tr :=
  c1_stage_order (fun _ => some 5) (fun _ => some 7) 9 [Shot.mk "p" "m"]
    [RAction.acceptAll] [] (by decide)

/-- C2 counterexample: a clip file that exists on disk with size 0 is NOT
skipped — the clip loop requires `os.path.getsize(clip_path) > 0` as well —
so the shot is re-generated and the file changes. -/
theorem c2_zero_size_clip_counterexample :
    fsExists [(PathKey.clip 0, 0)] (PathKey.clip 0) = true ∧
    Event.clipGen 0 ∈ (sceneRun (fun _ => some 5) (fun _ => some 7) 9
        [Shot.mk "p" "m"] [RAction.acceptAll] [(PathKey.clip 0, 0)]).tr ∧
    fsLookup (sceneRun (fun _ => some 5) (fun _ => some 7) 9 [Shot.mk "p" "m"]
        [RAction.acceptAll] [(PathKey.clip 0, 0)]).fs (PathKey.clip 0) ≠
      fsLookup [(PathKey.clip 0, 0)] (PathKey.clip 0) := by
  refine ⟨by decide, by decide, by decide⟩

/-- C2 (amended): with the keyframes accepted on review, a keyframe that
exists on disk is skipped and left unchanged by the whole run; a clip is
skipped and left unchanged when it exists AND has positive size (a zero-size
clip file is re-generated). -/
theorem c2_resume_skip (korc corc : Nat → Option Nat) (ssz : Nat)
    (shots : List Shot) (fs0 : FS) (j : Nat) :
    (fsExists fs0 (PathKey.keyframe j) = true →
      Event.keyframeGen j ∉
        (sceneRun korc corc ssz shots [RAction.acceptAll] fs0).tr ∧
      fsLookup (sceneRun korc corc ssz shots [RAction.acceptAll] fs0).fs
          (PathKey.keyframe j) =
        fsLookup fs0 (PathKey.keyframe j)) ∧
    (fsExists fs0 (PathKey.clip j) = true → 0 < fsSize fs0 (PathKey.clip j) →
      Event.clipGen j ∉
        (sceneRun korc corc ssz shots [RAction.acceptAll] fs0).tr ∧
      fsLookup (sceneRun korc corc ssz shots [RAction.acceptAll] fs0).fs
          (PathKey.clip j) =
        fsLookup fs0 (PathKey.clip j)) := by
  constructor
  · intro hkf
    have hK := kfGo_preserve korc shots 0 fs0 _ hkf
    have hC := clipGo_preserve_nonclip corc shots 0 (kfGo korc shots 0 fs0).fs
      (PathKey.keyframe j) (by intro j2; simp)
    constructor
    · intro hmem
      rcases sceneRun_tr_decomp korc corc ssz shots fs0 _ hmem with h | h | h
      · exact kfGo_no_regen korc shots 0 fs0 j hkf h
      · obtain ⟨j2, hj2⟩ := clipGo_events corc shots 0 _ _ h
        exact Event.noConfusion hj2
      · exact Event.noConfusion h
    · exact sceneRun_fs_preserve korc corc ssz shots fs0 _ hK hC (by simp)
  · intro hcl hsz
    have hK := kfGo_preserve_nonkf korc shots 0 fs0 (PathKey.clip j)
      (by intro j2; simp)
    have hclb : fsExists (kfGo korc shots 0 fs0).fs (PathKey.clip j) = true := by
      rw [fsExists, hK]; exact hcl
    have hszb : 0 < fsSize (kfGo korc shots 0 fs0).fs (PathKey.clip j) := by
      rw [fsSize, hK]; exact hsz
    obtain ⟨hC, hCe⟩ :=
      clipGo_preserve_pos corc shots 0 (kfGo korc shots 0 fs0).fs j hclb hszb
    constructor
    · intro hmem
      rcases sceneRun_tr_decomp korc corc ssz shots fs0 _ hmem with h | h | h
      · obtain ⟨j2, hj2⟩ := kfGo_events korc shots 0 _ _ h
        exact Event.noConfusion hj2
      · exact hCe h
      · exact Event.noConfusion h
    · exact sceneRun_fs_preserve korc corc ssz shots fs0 _ hK hC (by simp)

/-- Witness for C2: a run over a directory already holding a positive-size
clip leaves it untouched and emits no generation event for it. -/
theorem c2_resume_skip_witness :
    fsExists [(PathKey.clip 0, 6)] (PathKey.clip 0) = true ∧
    0 < fsSize [(PathKey.clip 0, 6)] (PathKey.clip 0) ∧
    (Event.clipGen 0 ∉ (sceneRun (fun _ => some 5) (fun _ => some 7) 9
        [Shot.mk "p" "m"] [RAction.acceptAll] [(PathKey.clip 0, 6)]).tr ∧
      fsLookup (sceneRun (fun _ => some 5) (fun _ => some 7) 9 [Shot.mk "p" "m"]
          [RAction.acceptAll] [(PathKey.clip 0, 6)]).fs (PathKey.clip 0) =
        fsLookup [(PathKey.clip 0, 6)] (PathKey.clip 0)) :=
  ⟨by decide, by decide,
    (c2_resume_skip (fun _ => some 5) (fun _ => some 7) 9 [Shot.mk "p" "m"]
        [(PathKey.clip 0, 6)] 0).2 (by decide) (by decide)⟩

end DirectorsChair
